import Mathlib

/-!
# Smart-Buoy: SMS command controller and boot launcher

A shallow embedding of three C translation units of the Legato applications

* `legato/TaringaSMSController/smsController/smsMT.c` (`StartProcess`, `RxMessageHandler`),
* `legato/TaringaSMSController/smsController/smsMO.c` (`smsmo_SendMessage`),
* `legato/TaringaBoot/TaringaComponent/TaringaComponent.c` (`StartProcess`),

followed by theorems about them.

Conventions of the embedding.

* A C string is the list of its characters before the terminating NUL; one `Char` stands for
  one C `char`.
* Calls into the platform (telephony service, `chdir`, `system`, `popen`, logging) are answered
  by an environment record and recorded, in program order, in a list of `Effect`s.
* Writing past the end of a fixed-size `char` array has no defined behaviour in C; the embedding
  returns `none` at that point.
* `LE_SMS_TEXT_MAX_BYTES` comes from the Legato headers, which are not part of the repository;
  it is a parameter of every definition that uses it.
* The width of `long` is fixed by the platform, not by the repository; it is a parameter
  (`DataModel`) of the `%d` conversion and of everything that calls it.
-/

namespace SmartBuoy

/-! ## C strings and the `<ctype.h>` / `<stdio.h>` functions the sources call -/

/-- The characters of a C string, terminator excluded. -/
abbrev CStr := List Char

/-- C `isspace` in the "C" locale: space, `\t`, `\n`, `\v`, `\f`, `\r`. -/
def isspace (c : Char) : Bool :=
  c = ' ' || c = '\t' || c = '\n' || c = '\x0b' || c = '\x0c' || c = '\r'

/-- C `isdigit`. -/
def isdigit (c : Char) : Bool :=
  decide ('0'.toNat ≤ c.toNat) && decide (c.toNat ≤ '9'.toNat)

/-- Ordinary characters of a `scanf` format: each must equal the next input character.
`none` is a matching failure or the end of the input. -/
def matchLiteral : List Char → CStr → Option CStr
  | [], s => some s
  | _ :: _, [] => none
  | c :: cs, x :: xs => if c = x then matchLiteral cs xs else none

/-- A white-space directive of a `scanf` format, and the white space skipped in front of a
`%s` or `%d` conversion: reads input up to the first non-white-space character. -/
def skipWhite (s : CStr) : CStr :=
  s.dropWhile isspace

/-- The `%s` conversion without a field width: skips white space, then takes the longest run of
non-white-space characters; fails when that run is empty (the input has ended). -/
def conv_s (s : CStr) : Option CStr :=
  let tok := (skipWhite s).takeWhile (fun c => !isspace c)
  if tok = [] then none else some tok

/-- Value of a run of decimal digits, most significant first. -/
def digitsValue (ds : List Char) : Nat :=
  ds.foldl (fun acc c => 10 * acc + (c.toNat - '0'.toNat)) 0

/-- The C data model of the platform: `long` has 32 bits (`ILP32`, 32-bit Linux) or 64 bits
(`LP64`, 64-bit Linux). -/
inductive DataModel
  | ILP32
  | LP64
  deriving DecidableEq

/-- `LONG_BIT`: the number of bits of a `long`. -/
def DataModel.LONG_BIT : DataModel → Nat
  | .ILP32 => 32
  | .LP64 => 64

/-- The value `strtol` returns for a decimal numeral of value `x`: `x` itself when a `long`
holds it, otherwise `LONG_MAX` or `LONG_MIN`. -/
def strtol_value (dm : DataModel) (x : Int) : Int :=
  max (-(2 ^ (dm.LONG_BIT - 1))) (min x (2 ^ (dm.LONG_BIT - 1) - 1))

/-- The cast `(int) num` of a `long` to a 32-bit `int`: the low 32 bits, read as two's
complement. A value in the range of `int` is unchanged. -/
def int_of_long (x : Int) : Int :=
  (x + 2 ^ 31) % 2 ^ 32 - 2 ^ 31

/-- The `int` a `%d` conversion stores for a numeral of value `x`. The C library converts the
digits with `strtol` and stores the result cast to `int`; for a value outside the range of
`int`, which ISO C leaves undefined, this gives saturation at `LONG_MAX` / `LONG_MIN`
followed by truncation to 32 bits. -/
def stored_int (dm : DataModel) (x : Int) : Int :=
  int_of_long (strtol_value dm x)

/-- The `%d` conversion: skips white space, reads an optional sign and the longest run of
decimal digits; fails when there is no digit. -/
def conv_d (dm : DataModel) (s : CStr) : Option Int :=
  match skipWhite s with
  | '-' :: r =>
    let ds := r.takeWhile isdigit
    if ds = [] then none else some (stored_int dm (-(digitsValue ds : Int)))
  | '+' :: r =>
    let ds := r.takeWhile isdigit
    if ds = [] then none else some (stored_int dm (digitsValue ds : Int))
  | r =>
    let ds := r.takeWhile isdigit
    if ds = [] then none else some (stored_int dm (digitsValue ds : Int))

/-- `sscanf(text, "UPGRADE %s", buf)`: `some tok` when the call returns 1 and stores `tok`;
`none` when it returns 0 or `EOF` (nothing is stored). -/
def sscanf_UPGRADE_s (text : CStr) : Option CStr :=
  match matchLiteral "UPGRADE".toList text with
  | none => none
  | some rest => conv_s (skipWhite rest)

/-- `sscanf(text, "ULPM %d", &n)`: `some n` when the call returns 1 and stores `n`;
`none` when it returns 0 or `EOF` (nothing is stored). -/
def sscanf_ULPM_d (dm : DataModel) (text : CStr) : Option Int :=
  match matchLiteral "ULPM".toList text with
  | none => none
  | some rest => conv_d dm (skipWhite rest)

/-- The `%d` conversion of `printf`. -/
def fmt_d (n : Int) : CStr :=
  if n < 0 then '-' :: Nat.toDigits 10 n.natAbs else Nat.toDigits 10 n.toNat

/-- `snprintf(buf, size, ...)` where the formatted text is `s`: at most `size - 1` characters
are stored in front of the terminator. -/
def snprintf (size : Nat) (s : CStr) : CStr :=
  s.take (size - 1)

/-- `sprintf(buf, ...)` into an array of `size` bytes where the formatted text is `s`:
defined only when `s` and its terminator fit. -/
def sprintf (size : Nat) (s : CStr) : Option CStr :=
  if s.length < size then some s else none

/-! ## Message templates of `smsMT.c` -/

/-- `MESSAGE_UPGRADE_SUCCESS`. -/
def MESSAGE_UPGRADE_SUCCESS : CStr := "Upgrade started".toList

/-- `MESSAGE_REBOOT_SUCCESS`. -/
def MESSAGE_REBOOT_SUCCESS : CStr := "Rebooting FX30".toList

/-- `MESSAGE_ULPM_SUCCESS`, formatted with its `%d` argument. -/
def MESSAGE_ULPM_SUCCESS (n : Int) : CStr :=
  "Going into ULPM for ".toList ++ fmt_d n ++ " seconds".toList

/-- `MESSAGE_FAIL`, formatted with its `%s` argument. -/
def MESSAGE_FAIL (text : CStr) : CStr :=
  "Unknown command '".toList ++ text ++ "'".toList

/-! ## Platform calls and their record -/

/-- Legato `le_result_t`; the sources test against `LE_OK` and return `LE_OK` or `LE_FAULT`. -/
inductive le_result_t
  | LE_OK
  | LE_FAULT
  | LE_OTHER (code : Int)
  deriving DecidableEq

/-- Severity of a log line: `LE_INFO`, `LE_WARN`, `LE_ERROR`. -/
inductive LogLevel
  | info
  | warn
  | error
  deriving DecidableEq

/-- The two message objects in play: the received one (`msgRef`) and the reply (`myMsg`). -/
inductive MsgRef
  | msgRef
  | myMsg
  deriving DecidableEq

/-- One call that leaves the program. Log lines are recorded with their format text only. -/
inductive Effect
  | log (lvl : LogLevel) (fmt : String)
  | le_sms_Create
  | le_sms_SetDestination (dest : CStr)
  | le_sms_SetText (text : CStr)
  | le_sms_Send
  | le_sms_Delete (m : MsgRef)
  | le_sms_DeleteFromStorage
  | chdir (wd : CStr)
  | system (cmd : CStr)
  | popen (cmd : CStr)
  | pclose
  deriving DecidableEq

/-- The events of the trace that belong to a subprocess launch: `chdir` and `system`. -/
def Effect.isProcess : Effect → Bool
  | .chdir _ => true
  | .system _ => true
  | _ => false

/-- The `system` calls. -/
def Effect.isSystem : Effect → Bool
  | .system _ => true
  | _ => false

/-- The calls that build and submit an outgoing message: `le_sms_Create`,
`le_sms_SetDestination`, `le_sms_SetText`, `le_sms_Send`. -/
def Effect.isReplyCall : Effect → Bool
  | .le_sms_Create => true
  | .le_sms_SetDestination _ => true
  | .le_sms_SetText _ => true
  | .le_sms_Send => true
  | _ => false

/-- The subprocess-launch events of a trace, in order. -/
def processEvents (tr : List Effect) : List Effect :=
  tr.filter Effect.isProcess

/-! ## `smsMO.c` -/

namespace smsMO

/-- Answers of the telephony service to the calls of `smsmo_SendMessage`. -/
structure SendEnv where
  /-- `le_sms_Create` returned a message (not `NULL`). -/
  le_sms_Create : Bool
  le_sms_SetDestination : le_result_t
  le_sms_SetText : le_result_t
  le_sms_Send : le_result_t

/-- `smsmo_SendMessage(destinationPtr, textPtr)`: the calls made and the value returned. -/
def smsmo_SendMessage (e : SendEnv) (destinationPtr textPtr : CStr) :
    List Effect × le_result_t :=
  if e.le_sms_Create = false then
    ([.le_sms_Create, .log .error "SMS message creation has failed!"], .LE_FAULT)
  else if e.le_sms_SetDestination ≠ .LE_OK then
    ([.le_sms_Create, .le_sms_SetDestination destinationPtr,
      .log .error "le_sms_SetDestination has failed (res.%d)!"], .LE_FAULT)
  else if e.le_sms_SetText ≠ .LE_OK then
    ([.le_sms_Create, .le_sms_SetDestination destinationPtr, .le_sms_SetText textPtr,
      .log .error "le_sms_SetText has failed (res.%d)!"], .LE_FAULT)
  else if e.le_sms_Send ≠ .LE_OK then
    ([.le_sms_Create, .le_sms_SetDestination destinationPtr, .le_sms_SetText textPtr,
      .le_sms_Send, .log .error "le_sms_Send has failed (res.%d)!"], .LE_FAULT)
  else
    ([.le_sms_Create, .le_sms_SetDestination destinationPtr, .le_sms_SetText textPtr,
      .le_sms_Send, .log .info "\"%s\" has been successfully sent to %s.",
      .le_sms_Delete .myMsg], .LE_OK)

end smsMO

/-! ## `smsMT.c` -/

namespace smsMT

/-- Answers of the operating system to `chdir` and `system`, by argument. -/
structure ProcEnv where
  chdir : CStr → Int
  system : CStr → Int

/-- Answers of the platform to the calls of `RxMessageHandler`. -/
structure RxEnv where
  /-- `le_sms_GetFormat(msgRef) == LE_SMS_FORMAT_TEXT`. -/
  formatIsText : Bool
  le_sms_GetSenderTel : le_result_t
  /-- Contents of `tel` after `le_sms_GetSenderTel`. -/
  tel : CStr
  le_sms_GetTimeStamp : le_result_t
  le_sms_GetText : le_result_t
  /-- Contents of `text` after a successful `le_sms_GetText`. -/
  text : CStr
  send : smsMO.SendEnv
  le_sms_DeleteFromStorage : le_result_t
  proc : ProcEnv

/-- `StartProcess(wd, cmd)` of `smsMT.c`: a failed `chdir` and a non-zero `system` result are
logged, nothing else. -/
def StartProcess (p : ProcEnv) (wd cmd : CStr) : List Effect :=
  [.chdir wd]
    ++ (if p.chdir wd ≠ 0 then [.log .error "Error changing directory to: %s"] else [])
    ++ [.log .info "Running script %s", .system cmd]
    ++ (if p.system cmd ≠ 0 then [.log .error "The script exited with an error"] else [])

/-- The local variables of `RxMessageHandler` that outlive the parsing step. -/
structure Locals where
  textReturn : CStr
  ulpm_num_seconds : Int
  upgrade_version_code : CStr
  do_reboot : Bool
  deriving DecidableEq

/-- The initial values: `textReturn = {0}`, `ulpm_num_seconds = 0`,
`upgrade_version_code[0] = '\0'`, `do_reboot = false`. -/
def Locals.init : Locals :=
  ⟨[], 0, [], false⟩

/-- Lines 97-120 of `RxMessageHandler`: the `if` / `else if` chain over the message text.
`textReturn` has `LE_SMS_TEXT_MAX_BYTES` bytes, `upgrade_version_code` has 256; a token that
does not fit the latter is a buffer overrun (`none`). -/
def RxMessageHandler_classify (LE_SMS_TEXT_MAX_BYTES : Nat) (dm : DataModel) (text : CStr) :
    Option Locals :=
  match sscanf_UPGRADE_s text with
  | some tok =>
    if tok.length < 256 then
      some ⟨snprintf LE_SMS_TEXT_MAX_BYTES MESSAGE_UPGRADE_SUCCESS, 0, tok, false⟩
    else none
  | none =>
    if text = "REBOOT".toList then
      some ⟨snprintf LE_SMS_TEXT_MAX_BYTES MESSAGE_REBOOT_SUCCESS, 0, [], true⟩
    else
      match sscanf_ULPM_d dm text with
      | some n => some ⟨snprintf LE_SMS_TEXT_MAX_BYTES (MESSAGE_ULPM_SUCCESS n), n, [], false⟩
      | none => some ⟨snprintf LE_SMS_TEXT_MAX_BYTES (MESSAGE_FAIL text), 0, [], false⟩

/-- Lines 154-160: the upgrade action; `upgrade_cmd` has 256 bytes. -/
def RxMessageHandler_upgrade (p : ProcEnv) (l : Locals) : Option (List Effect) :=
  if l.upgrade_version_code.length > 0 then
    match sprintf 256 ("./upgrade.sh ".toList ++ l.upgrade_version_code) with
    | some upgrade_cmd =>
      some (.log .info "Running upgrade: %s"
        :: StartProcess p "/home/root/sms_scripts".toList upgrade_cmd)
    | none => none
  else some []

/-- Lines 162-165: the reboot action. -/
def RxMessageHandler_reboot (p : ProcEnv) (l : Locals) : List Effect :=
  if l.do_reboot then StartProcess p "/home/root".toList "/sbin/reboot".toList else []

/-- Lines 167-172: the sleep action; `ulpm_cmd` has 30 bytes. -/
def RxMessageHandler_ulpm (p : ProcEnv) (l : Locals) : Option (List Effect) :=
  if l.ulpm_num_seconds > 0 then
    match sprintf 30 ("./ulpm.sh ".toList ++ fmt_d l.ulpm_num_seconds) with
    | some ulpm_cmd => some (StartProcess p "/home/root/sms_scripts".toList ulpm_cmd)
    | none => none
  else some []

/-- Lines 154-172: the three actions in program order. -/
def RxMessageHandler_actions (p : ProcEnv) (l : Locals) : Option (List Effect) :=
  match RxMessageHandler_upgrade p l with
  | none => none
  | some a₁ =>
    match RxMessageHandler_ulpm p l with
    | none => none
    | some a₃ => some (a₁ ++ RxMessageHandler_reboot p l ++ a₃)

/-- The log line that follows a telephony call. -/
def logResult (res : le_result_t) (failed succeeded : String) : Effect :=
  if res ≠ .LE_OK then .log .error failed else .log .info succeeded

/-- Lines 88-121: reading the text and parsing it. -/
def RxMessageHandler_read (LE_SMS_TEXT_MAX_BYTES : Nat) (dm : DataModel) (e : RxEnv) :
    Option (List Effect × Locals) :=
  if e.le_sms_GetText ≠ .LE_OK then
    some ([.log .error "le_sms_GetText has failed (res.%d)!"], Locals.init)
  else
    match RxMessageHandler_classify LE_SMS_TEXT_MAX_BYTES dm e.text with
    | some l => some ([.log .info "Message content: \"%s\""], l)
    | none => none

/-- Lines 64-149: everything up to the release of the received message. -/
def RxMessageHandler_receive (LE_SMS_TEXT_MAX_BYTES : Nat) (dm : DataModel) (e : RxEnv) :
    Option (List Effect × Locals) :=
  if e.formatIsText then
    match RxMessageHandler_read LE_SMS_TEXT_MAX_BYTES dm e with
    | none => none
    | some (readLog, l) =>
      some ([.log .info "A New SMS message is received with ref.%p",
            logResult e.le_sms_GetSenderTel "le_sms_GetSenderTel has failed (res.%d)!"
              "Message is received from %s.",
            logResult e.le_sms_GetTimeStamp "le_sms_GetTimeStamp has failed (res.%d)!"
              "Message timestamp is %s."]
          ++ readLog
          ++ (smsMO.smsmo_SendMessage e.send e.tel l.textReturn).1
          ++ [logResult (smsMO.smsmo_SendMessage e.send e.tel l.textReturn).2
                "smsmo_SendMessage has failed (res.%d)!"
                "The message has been successfully sent.",
              .le_sms_DeleteFromStorage,
              logResult e.le_sms_DeleteFromStorage
                "le_sms_DeleteFromStorage has failed (res.%d)!"
                "the message has been successfully deleted from storage.",
              .le_sms_Delete .msgRef], l)
  else
    some ([.log .info "A New SMS message is received with ref.%p",
           .log .warn "Warning! I read only Text messages!",
           .le_sms_Delete .msgRef], Locals.init)

/-- `RxMessageHandler(msgRef, contextPtr)`: the calls made, in order; `none` when a buffer is
overrun. -/
def RxMessageHandler (LE_SMS_TEXT_MAX_BYTES : Nat) (dm : DataModel) (e : RxEnv) :
    Option (List Effect) :=
  match RxMessageHandler_receive LE_SMS_TEXT_MAX_BYTES dm e with
  | none => none
  | some (tr, l) =>
    match RxMessageHandler_actions e.proc l with
    | none => none
    | some acts => some (tr ++ acts)

/-- The third branch of the chain in `RxMessageHandler` is taken and `%d` stores `n`: the
`"UPGRADE %s"` scan fails, the text is not `"REBOOT"`, and the `"ULPM %d"` scan returns 1. -/
def ParsesAsSleep (dm : DataModel) (text : CStr) (n : Int) : Prop :=
  sscanf_UPGRADE_s text = none ∧ text ≠ "REBOOT".toList ∧ sscanf_ULPM_d dm text = some n

instance (dm : DataModel) (text : CStr) (n : Int) : Decidable (ParsesAsSleep dm text n) := by
  unfold ParsesAsSleep
  infer_instance

/-- None of the first three branches of the chain in `RxMessageHandler` is taken. -/
def ParsesAsUnknown (dm : DataModel) (text : CStr) : Prop :=
  sscanf_UPGRADE_s text = none ∧ text ≠ "REBOOT".toList ∧ sscanf_ULPM_d dm text = none

instance (dm : DataModel) (text : CStr) : Decidable (ParsesAsUnknown dm text) := by
  unfold ParsesAsUnknown
  infer_instance

/-- The text is an upgrade command as the `"UPGRADE %s"` scan accepts it: the keyword
`UPGRADE`, then any amount of white space (none included), then a character that is not white
space. -/
def IsUpgradeCommand (text : CStr) : Prop :=
  ∃ ws c rest, text = "UPGRADE".toList ++ ws ++ c :: rest ∧
    (∀ w ∈ ws, isspace w = true) ∧ isspace c = false

/-- The text is a sleep command as the `"ULPM %d"` scan accepts it: the keyword `ULPM`, then
any amount of white space (none included), then an optional sign, then a decimal digit. -/
def IsUlpmCommand (text : CStr) : Prop :=
  ∃ ws sign d rest, text = "ULPM".toList ++ ws ++ sign ++ d :: rest ∧
    (∀ w ∈ ws, isspace w = true) ∧ (sign = [] ∨ sign = ['-'] ∨ sign = ['+']) ∧
    isdigit d = true

/-- The calls of one reply attempt to `dest` with the text `text`, as far as the telephony
service lets it go: `le_sms_Create`; when that gives a message, `le_sms_SetDestination`; when
that succeeds, `le_sms_SetText`; when that succeeds, `le_sms_Send`. -/
def replyCalls (s : smsMO.SendEnv) (dest text : CStr) : List Effect :=
  .le_sms_Create ::
    if s.le_sms_Create = false then [] else
      .le_sms_SetDestination dest ::
        if s.le_sms_SetDestination ≠ .LE_OK then [] else
          .le_sms_SetText text ::
            if s.le_sms_SetText ≠ .LE_OK then [] else [.le_sms_Send]

/-- A platform on which every call succeeds and the received text is `body`. -/
def sampleEnv (body : CStr) : RxEnv :=
  ⟨true, .LE_OK, "+64211234567".toList, .LE_OK, .LE_OK, body, ⟨true, .LE_OK, .LE_OK, .LE_OK⟩,
    .LE_OK, ⟨fun _ => 0, fun _ => 0⟩⟩

end smsMT

/-! ## `TaringaComponent.c` -/

namespace TaringaComponent

/-- Answers of the operating system to the calls of the boot launcher. -/
structure BootEnv where
  /-- Result of `chdir(wd)`. -/
  chdir : Int
  /-- Result of `popen(cmd, "r")`: `none` for `NULL`, otherwise the strings the successive
  `fgets` calls deliver before `fgets` returns `NULL`. -/
  popen : Option (List CStr)
  /-- Result of `pclose(fp)`, a wait status. -/
  pclose : Int

/-- How a call ends: it returns, or `LE_ASSERT` / `LE_FATAL_IF` ends the process with a
message. -/
inductive Outcome
  | returned
  | fatal (msg : CStr)
  deriving DecidableEq

/-- `StartProcess(wd, cmd)` of `TaringaComponent.c`. `WIFEXITED` and `WEXITSTATUS` are the
macros of `<sys/wait.h>`. A failed `LE_ASSERT(fp != NULL)` ends the process; its message is
the text of the asserted condition. -/
def StartProcess (WIFEXITED : Int → Bool) (WEXITSTATUS : Int → Int) (e : BootEnv)
    (wd cmd : CStr) : List Effect × Outcome :=
  let start : List Effect :=
    [.chdir wd]
      ++ (if e.chdir ≠ 0 then [.log .error "Error changing directory to: %s"] else [])
      ++ [.log .info "Running %s", .popen cmd]
  match e.popen with
  | none => (start, .fatal "Assert Failed: 'fp != NULL'".toList)
  | some lines =>
    let tr := start ++ lines.map (fun _ => Effect.log .info "script output: '%s'") ++ [.pclose]
    if !WIFEXITED e.pclose then (tr, .fatal "Could not run boot script".toList)
    else if WEXITSTATUS e.pclose ≠ 0 then
      (tr, .fatal ("boot script failed with exit code ".toList ++ fmt_d (WEXITSTATUS e.pclose)))
    else (tr, .returned)

/-- `COMPONENT_INIT`. -/
def COMPONENT_INIT (WIFEXITED : Int → Bool) (WEXITSTATUS : Int → Int) (e : BootEnv) :
    List Effect × Outcome :=
  StartProcess WIFEXITED WEXITSTATUS e "/home/root".toList "./boot.sh".toList

/-- `WIFEXITED` as glibc defines it: the low seven bits of the status are zero. -/
def glibc_WIFEXITED (status : Int) : Bool :=
  status % 128 = 0

/-- `WEXITSTATUS` as glibc defines it: bits 8 to 15 of the status. -/
def glibc_WEXITSTATUS (status : Int) : Int :=
  status / 256 % 256

end TaringaComponent

end SmartBuoy

/-! ## Scanning and formatting lemmas -/

namespace SmartBuoy

open smsMT

theorem matchLiteral_eq_some (p : List Char) : ∀ (s r : CStr),
    matchLiteral p s = some r ↔ s = p ++ r := by
  induction p with
  | nil => intro s r; simp [matchLiteral, eq_comm]
  | cons c cs ih =>
    intro s r
    cases s with
    | nil => simp [matchLiteral]
    | cons x xs =>
      by_cases h : c = x
      · simp [matchLiteral, h, ih]
      · simp [matchLiteral, h, Ne.symm h]

theorem matchLiteral_eq_none (p : List Char) (s : CStr) (h : ¬ p <+: s) :
    matchLiteral p s = none := by
  cases hm : matchLiteral p s with
  | none => rfl
  | some r => exact absurd ⟨r, ((matchLiteral_eq_some p s r).1 hm).symm⟩ h

theorem sscanf_UPGRADE_s_eq_none (s : CStr) (h : ¬ "UPGRADE".toList <+: s) :
    sscanf_UPGRADE_s s = none := by
  unfold sscanf_UPGRADE_s
  rw [matchLiteral_eq_none _ s h]

theorem sscanf_ULPM_d_eq_none {dm : DataModel} (s : CStr) (h : ¬ "ULPM".toList <+: s) :
    sscanf_ULPM_d dm s = none := by
  unfold sscanf_ULPM_d
  rw [matchLiteral_eq_none _ s h]

theorem classify_unknown (B : Nat) (dm : DataModel) (s : CStr) (hU : sscanf_UPGRADE_s s = none)
    (hR : s ≠ "REBOOT".toList) (hL : sscanf_ULPM_d dm s = none) :
    RxMessageHandler_classify B dm s = some ⟨snprintf B (MESSAGE_FAIL s), 0, [], false⟩ := by
  unfold RxMessageHandler_classify
  rw [hU]
  simp only []
  rw [if_neg hR, hL]

theorem actions_idle (p : ProcEnv) (t : CStr) :
    RxMessageHandler_actions p ⟨t, 0, [], false⟩ = some [] := by
  simp [RxMessageHandler_actions, RxMessageHandler_upgrade, RxMessageHandler_ulpm,
    RxMessageHandler_reboot]

theorem digitChar_spec (m : Nat) (h : m < 10) :
    isdigit (Nat.digitChar m) = true ∧ (Nat.digitChar m).toNat - '0'.toNat = m := by
  interval_cases m <;> decide

theorem digitsValue_snoc (ds : List Char) (c : Char) :
    digitsValue (ds ++ [c]) = 10 * digitsValue ds + (c.toNat - '0'.toNat) := by
  simp [digitsValue]

/-- With more fuel than the number, `Nat.toDigitsCore` in base 10 puts a non-empty run of
decimal digits in front of what it was given; the run reads back as the number and is no
longer than the number of decimal places. -/
theorem toDigitsCore_decimal (fuel : Nat) : ∀ (n : Nat) (tail : List Char), fuel > n →
    ∃ run, run ≠ [] ∧ Nat.toDigitsCore 10 fuel n tail = run ++ tail ∧ digitsValue run = n ∧
      (∀ c ∈ run, isdigit c = true) ∧ ∀ k, n < 10 ^ (k + 1) → run.length ≤ k + 1 := by
  induction fuel with
  | zero => intro n tail h; omega
  | succ fuel ih =>
    intro n tail hn
    have hd := digitChar_spec (n % 10) (Nat.mod_lt _ (by decide))
    unfold Nat.toDigitsCore
    by_cases hq : n / 10 = 0
    · refine ⟨[Nat.digitChar (n % 10)], by simp, by simp [hq], ?_, by simpa using hd.1,
        fun k _ => by simp⟩
      rw [show [Nat.digitChar (n % 10)] = [] ++ [Nat.digitChar (n % 10)] from rfl,
        digitsValue_snoc, hd.2]
      simp only [digitsValue, List.foldl_nil]
      omega
    · obtain ⟨run, r₁, r₂, r₃, r₄, r₅⟩ := ih (n / 10) (Nat.digitChar (n % 10) :: tail) (by omega)
      refine ⟨run ++ [Nat.digitChar (n % 10)], by simp, by simp [hq, r₂], ?_, ?_, ?_⟩
      · rw [digitsValue_snoc, r₃, hd.2]
        omega
      · intro c hc
        rcases List.mem_append.1 hc with hc | hc
        · exact r₄ c hc
        · simpa [List.mem_singleton.1 hc] using hd.1
      · intro k hk
        cases k with
        | zero => omega
        | succ k =>
          have := r₅ k (by rw [pow_succ] at hk; omega)
          simp
          omega

theorem toDigits_spec (n : Nat) :
    Nat.toDigits 10 n ≠ [] ∧ (∀ c ∈ Nat.toDigits 10 n, isdigit c = true) ∧
      digitsValue (Nat.toDigits 10 n) = n ∧
      ∀ k, n < 10 ^ (k + 1) → (Nat.toDigits 10 n).length ≤ k + 1 := by
  obtain ⟨run, r₁, r₂, r₃, r₄, r₅⟩ := toDigitsCore_decimal (n + 1) n [] (by omega)
  have : Nat.toDigits 10 n = run := by simpa [Nat.toDigits] using r₂
  rw [this]
  exact ⟨r₁, r₄, r₃, r₅⟩

theorem isdigit_not_isspace (c : Char) (h : isdigit c = true) : isspace c = false := by
  simp only [isdigit, Bool.and_eq_true, decide_eq_true_eq] at h
  simp only [isspace, Bool.or_eq_false_iff, decide_eq_false_iff_not]
  refine ⟨⟨⟨⟨⟨?_, ?_⟩, ?_⟩, ?_⟩, ?_⟩, ?_⟩ <;> (rintro rfl; revert h; decide)

theorem isdigit_not_sign (c : Char) (h : isdigit c = true) : c ≠ '-' ∧ c ≠ '+' := by
  simp only [isdigit, Bool.and_eq_true, decide_eq_true_eq] at h
  constructor <;> (rintro rfl; revert h; decide)

theorem takeWhile_all {α : Type} (p : α → Bool) (l : List α) (h : ∀ a ∈ l, p a = true) :
    l.takeWhile p = l := by
  induction l with
  | nil => rfl
  | cons a l ih =>
    rw [List.takeWhile_cons, h a (List.mem_cons_self _ _)]
    simp only [↓reduceIte, List.cons.injEq, true_and]
    exact ih (fun b hb => h b (List.mem_cons_of_mem _ hb))

theorem skipWhite_of_head (c : Char) (s : CStr) (h : isspace c = false) :
    skipWhite (c :: s) = c :: s := by
  simp [skipWhite, List.dropWhile, h]

theorem conv_d_digits (dm : DataModel) (ds : List Char) (hne : ds ≠ [])
    (hd : ∀ c ∈ ds, isdigit c = true) :
    conv_d dm ds = some (stored_int dm (digitsValue ds)) ∧
      conv_d dm ('-' :: ds) = some (stored_int dm (-(digitsValue ds : Int))) ∧
      skipWhite ds = ds := by
  have htw := takeWhile_all isdigit ds hd
  cases ds with
  | nil => exact absurd rfl hne
  | cons c cs =>
    have hc := hd c (List.mem_cons_self _ _)
    have hsp := skipWhite_of_head c cs (isdigit_not_isspace c hc)
    have hsg := isdigit_not_sign c hc
    refine ⟨?_, ?_, hsp⟩
    · unfold conv_d
      rw [hsp]
      split
      · rename_i r heq; exact absurd (List.cons.inj heq).1 hsg.1
      · rename_i r heq; exact absurd (List.cons.inj heq).1 hsg.2
      · simp only [htw]; simp
    · unfold conv_d
      rw [skipWhite_of_head _ _ (by decide)]
      simp only [htw]; simp

theorem stored_int_of_range (dm : DataModel) (n : Int) (h₁ : -2 ^ 31 ≤ n) (h₂ : n < 2 ^ 31) :
    stored_int dm n = n := by
  unfold stored_int strtol_value int_of_long
  cases dm <;> simp only [DataModel.LONG_BIT] <;> omega

theorem stored_int_range (dm : DataModel) (x : Int) :
    -2 ^ 31 ≤ stored_int dm x ∧ stored_int dm x < 2 ^ 31 := by
  unfold stored_int int_of_long
  omega

theorem fmt_d_spec (dm : DataModel) (n : Int) :
    conv_d dm (fmt_d n) = some (stored_int dm n) ∧ skipWhite (fmt_d n) = fmt_d n ∧
      (∀ c ∈ fmt_d n, isspace c = false) := by
  unfold fmt_d
  by_cases hn : n < 0
  · obtain ⟨h₁, h₂, h₃, -⟩ := toDigits_spec n.natAbs
    have hc := conv_d_digits dm _ h₁ h₂
    rw [if_pos hn]
    refine ⟨?_, skipWhite_of_head _ _ (by decide), ?_⟩
    · rw [hc.2.1, h₃]; congr 2; omega
    · intro c hc
      rcases List.mem_cons.1 hc with rfl | hc
      · decide
      · exact isdigit_not_isspace c (h₂ c hc)
  · obtain ⟨h₁, h₂, h₃, -⟩ := toDigits_spec n.toNat
    have hc := conv_d_digits dm _ h₁ h₂
    rw [if_neg hn]
    refine ⟨?_, hc.2.2, fun c hc => isdigit_not_isspace c (h₂ c hc)⟩
    rw [hc.1, h₃]; congr 2; omega

theorem fmt_d_length (n : Int) (h₁ : -2 ^ 31 ≤ n) (h₂ : n < 2 ^ 31) :
    (fmt_d n).length ≤ 11 ∧ (0 ≤ n → (fmt_d n).length ≤ 10) := by
  unfold fmt_d
  by_cases hn : n < 0
  · have := (toDigits_spec n.natAbs).2.2.2 9 (by omega)
    rw [if_pos hn]
    exact ⟨by simp; omega, fun h => by omega⟩
  · have := (toDigits_spec n.toNat).2.2.2 9 (by omega)
    rw [if_neg hn]
    exact ⟨by omega, fun _ => this⟩

/-! ## The pieces of `RxMessageHandler` -/

theorem sscanf_UPGRADE_s_token (t : CStr) (hne : t ≠ []) (hws : ∀ c ∈ t, isspace c = false) :
    sscanf_UPGRADE_s ("UPGRADE ".toList ++ t) = some t := by
  have hm : matchLiteral "UPGRADE".toList ("UPGRADE ".toList ++ t) = some (' ' :: t) :=
    (matchLiteral_eq_some _ _ _).2 rfl
  cases t with
  | nil => exact absurd rfl hne
  | cons c cs =>
    have hc := hws c (List.mem_cons_self _ _)
    have h₁ : skipWhite (' ' :: c :: cs) = c :: cs := by
      rw [show skipWhite (' ' :: c :: cs) = skipWhite (c :: cs) from rfl]
      exact skipWhite_of_head c cs hc
    have h₂ : (c :: cs).takeWhile (fun c => !isspace c) = c :: cs :=
      takeWhile_all _ _ (fun a ha => by simp [hws a ha])
    unfold sscanf_UPGRADE_s
    rw [hm]
    simp only [conv_s, h₁, skipWhite_of_head c cs hc, h₂]
    simp

theorem sscanf_UPGRADE_s_bound (text tok : CStr) (h : sscanf_UPGRADE_s text = some tok) :
    (∀ c ∈ tok, isspace c = false) ∧ tok ≠ [] ∧ tok.length + 7 ≤ text.length := by
  unfold sscanf_UPGRADE_s at h
  cases hm : matchLiteral "UPGRADE".toList text with
  | none => rw [hm] at h; exact absurd h (by simp)
  | some rest =>
    rw [hm] at h
    have htext := (matchLiteral_eq_some _ _ _).1 hm
    simp only [conv_s] at h
    split at h
    · exact absurd h (by simp)
    · rename_i hne
      have htok := Option.some.inj h
      subst htok
      refine ⟨fun c hc => by simpa using List.mem_takeWhile_imp hc, hne, ?_⟩
      have h₁ := List.Sublist.length_le
        (@List.takeWhile_sublist _ (skipWhite (skipWhite rest)) (fun c => !isspace c))
      have h₂ : (skipWhite (skipWhite rest)).length ≤ rest.length := by
        unfold skipWhite
        exact le_trans (List.Sublist.length_le (List.dropWhile_sublist _))
          (List.Sublist.length_le (List.dropWhile_sublist _))
      rw [htext, List.length_append]
      have : "UPGRADE".toList.length = 7 := rfl
      omega

theorem processEvents_StartProcess (p : ProcEnv) (wd cmd : CStr) :
    processEvents (StartProcess p wd cmd) = [.chdir wd, .system cmd] := by
  unfold StartProcess processEvents
  by_cases h₁ : p.chdir wd = 0 <;> by_cases h₂ : p.system cmd = 0 <;>
    simp [h₁, h₂, Effect.isProcess]

theorem actions_upgrade (p : ProcEnv) (t tok : CStr) (hne : tok ≠ [])
    (hlen : tok.length ≤ 242) :
    RxMessageHandler_actions p ⟨t, 0, tok, false⟩
      = some (.log .info "Running upgrade: %s"
          :: StartProcess p "/home/root/sms_scripts".toList ("./upgrade.sh ".toList ++ tok)) := by
  have hpos : tok.length > 0 := List.length_pos.2 hne
  have hfit : ("./upgrade.sh ".toList ++ tok).length < 256 := by
    rw [List.length_append]
    have : "./upgrade.sh ".toList.length = 13 := rfl
    omega
  simp only [RxMessageHandler_actions, RxMessageHandler_upgrade, RxMessageHandler_ulpm,
    RxMessageHandler_reboot, sprintf, if_pos hpos, if_pos hfit]
  simp

theorem actions_reboot (p : ProcEnv) (t : CStr) :
    RxMessageHandler_actions p ⟨t, 0, [], true⟩
      = some (StartProcess p "/home/root".toList "/sbin/reboot".toList) := by
  simp [RxMessageHandler_actions, RxMessageHandler_upgrade, RxMessageHandler_ulpm,
    RxMessageHandler_reboot]

theorem actions_ulpm (p : ProcEnv) (t : CStr) (n : Int) (h₁ : -2 ^ 31 ≤ n) (h₂ : n < 2 ^ 31) :
    RxMessageHandler_actions p ⟨t, n, [], false⟩
      = some (if 0 < n then
          StartProcess p "/home/root/sms_scripts".toList ("./ulpm.sh ".toList ++ fmt_d n)
        else []) := by
  by_cases hn : 0 < n
  · have hfit : ("./ulpm.sh ".toList ++ fmt_d n).length < 30 := by
      rw [List.length_append]
      have : "./ulpm.sh ".toList.length = 10 := rfl
      have := (fmt_d_length n h₁ h₂).2 (by omega)
      omega
    have hn' : n > 0 := hn
    simp only [RxMessageHandler_actions, RxMessageHandler_upgrade, RxMessageHandler_ulpm,
      RxMessageHandler_reboot, sprintf, if_pos hn', if_pos hn, if_pos hfit]
    simp
  · have hn' : ¬ n > 0 := hn
    simp only [RxMessageHandler_actions, RxMessageHandler_upgrade, RxMessageHandler_ulpm,
      RxMessageHandler_reboot, if_neg hn', if_neg hn]
    simp

theorem smsmo_SendMessage_trace (s : smsMO.SendEnv) (dest text : CStr) :
    processEvents (smsMO.smsmo_SendMessage s dest text).1 = [] ∧
      Effect.le_sms_Create ∈ (smsMO.smsmo_SendMessage s dest text).1 ∧
      Effect.le_sms_DeleteFromStorage ∉ (smsMO.smsmo_SendMessage s dest text).1 ∧
      (∀ x, Effect.le_sms_SetText x ∈ (smsMO.smsmo_SendMessage s dest text).1 → x = text) ∧
      (s.le_sms_Create = true → s.le_sms_SetDestination = .LE_OK →
        Effect.le_sms_SetText text ∈ (smsMO.smsmo_SendMessage s dest text).1) := by
  unfold smsMO.smsmo_SendMessage processEvents
  by_cases h₀ : s.le_sms_Create = false
  · simp [h₀, Effect.isProcess]
  · by_cases h₁ : s.le_sms_SetDestination = .LE_OK
    · by_cases h₂ : s.le_sms_SetText = .LE_OK
      · by_cases h₃ : s.le_sms_Send = .LE_OK <;>
          simp [h₀, h₁, h₂, h₃, Effect.isProcess]
      · simp [h₀, h₁, h₂, Effect.isProcess]
    · simp [h₀, h₁, Effect.isProcess]

/-- The trace of the text branch up to the release of the received message: it contains no
launch, it contains the send attempt and the deletion from storage, and every text handed to
`le_sms_SetText` is `textReturn`. -/
theorem receive_text (B : Nat) {dm : DataModel} (e : RxEnv) (l : Locals)
    (hfmt : e.formatIsText = true)
    (hget : e.le_sms_GetText = .LE_OK) (hc : RxMessageHandler_classify B dm e.text = some l) :
    ∃ pre, RxMessageHandler_receive B dm e = some (pre, l) ∧ processEvents pre = [] ∧
      Effect.le_sms_Create ∈ pre ∧ Effect.le_sms_DeleteFromStorage ∈ pre ∧
      (∀ x, Effect.le_sms_SetText x ∈ pre → x = l.textReturn) ∧
      (e.send.le_sms_Create = true → e.send.le_sms_SetDestination = .LE_OK →
        Effect.le_sms_SetText l.textReturn ∈ pre) := by
  obtain ⟨s₁, s₂, s₃, s₄, s₅⟩ := smsmo_SendMessage_trace e.send e.tel l.textReturn
  unfold processEvents at s₁
  have hlog : ∀ r a b, (logResult r a b).isProcess = false ∧
      logResult r a b ≠ .le_sms_Create ∧ logResult r a b ≠ .le_sms_DeleteFromStorage ∧
      ∀ x, logResult r a b ≠ .le_sms_SetText x := by
    intro r a b
    unfold logResult
    by_cases h : r = .LE_OK <;> simp [h, Effect.isProcess]
  simp only [RxMessageHandler_receive, RxMessageHandler_read, hfmt, hget, hc, ne_eq,
    not_true_eq_false, if_false, if_true]
  refine ⟨_, rfl, ?_, ?_, ?_, ?_, ?_⟩
  · have p₁ : ∀ a b, (Effect.log a b).isProcess = false := fun _ _ => rfl
    have p₂ : Effect.le_sms_DeleteFromStorage.isProcess = false := rfl
    have p₃ : ∀ m, (Effect.le_sms_Delete m).isProcess = false := fun _ => rfl
    have p₄ : ∀ r a b, (logResult r a b).isProcess = false := fun r a b => (hlog r a b).1
    simp [processEvents, List.filter_append, List.filter_cons, s₁, p₁, p₂, p₃, p₄]
  · simp [s₂]
  · simp
  · intro x hx
    simp only [List.mem_append, List.mem_cons, List.mem_singleton, List.not_mem_nil] at hx
    rcases hx with ((hx | hx) | hx) | hx
    · rcases hx with hx | hx | hx | hx
      · exact absurd hx (by simp)
      · exact absurd hx.symm ((hlog _ _ _).2.2.2 x)
      · exact absurd hx.symm ((hlog _ _ _).2.2.2 x)
      · exact hx.elim
    · rcases hx with hx | hx
      · exact absurd hx (by simp)
      · exact hx.elim
    · exact s₄ x hx
    · rcases hx with hx | hx | hx | hx | hx
      · exact absurd hx.symm ((hlog _ _ _).2.2.2 x)
      · exact absurd hx (by simp)
      · exact absurd hx.symm ((hlog _ _ _).2.2.2 x)
      · exact absurd hx (by simp)
      · exact hx.elim
  · intro h₁ h₂
    simp [s₅ h₁ h₂]

theorem handler_text (B : Nat) {dm : DataModel} (e : RxEnv) (l : Locals) (acts : List Effect)
    (hfmt : e.formatIsText = true) (hget : e.le_sms_GetText = .LE_OK)
    (hc : RxMessageHandler_classify B dm e.text = some l)
    (ha : RxMessageHandler_actions e.proc l = some acts) :
    ∃ pre, RxMessageHandler B dm e = some (pre ++ acts) ∧ processEvents pre = [] ∧
      Effect.le_sms_Create ∈ pre ∧ Effect.le_sms_DeleteFromStorage ∈ pre ∧
      (∀ x, Effect.le_sms_SetText x ∈ pre → x = l.textReturn) ∧
      (e.send.le_sms_Create = true → e.send.le_sms_SetDestination = .LE_OK →
        Effect.le_sms_SetText l.textReturn ∈ pre) := by
  obtain ⟨pre, h₁, h₂⟩ := receive_text B e l hfmt hget hc
  refine ⟨pre, ?_, h₂⟩
  simp only [RxMessageHandler, h₁, ha]

theorem StartProcess_no_SetText (p : ProcEnv) (wd cmd x : CStr) :
    Effect.le_sms_SetText x ∉ StartProcess p wd cmd := by
  unfold StartProcess
  by_cases c₁ : p.chdir wd = 0 <;> by_cases c₂ : p.system cmd = 0 <;> simp [c₁, c₂]

theorem snprintf_of_fits (B : Nat) (s : CStr) (h : s.length < B) : snprintf B s = s := by
  unfold snprintf
  exact List.take_of_length_le (by omega)

theorem conv_d_range {dm : DataModel} (s : CStr) (n : Int) (h : conv_d dm s = some n) :
    -2 ^ 31 ≤ n ∧ n < 2 ^ 31 := by
  unfold conv_d at h
  split at h <;> simp only [] at h <;> split at h <;>
    first
    | (rw [← Option.some.inj h]; exact stored_int_range _ _)
    | exact Option.noConfusion h

theorem sscanf_ULPM_d_range {dm : DataModel} (text : CStr) (n : Int)
    (h : sscanf_ULPM_d dm text = some n) :
    -2 ^ 31 ≤ n ∧ n < 2 ^ 31 := by
  unfold sscanf_ULPM_d at h
  split at h
  · exact absurd h (by simp)
  · exact conv_d_range _ n h

theorem sscanf_ULPM_d_decimal (dm : DataModel) (n : Int) :
    sscanf_ULPM_d dm ("ULPM ".toList ++ fmt_d n) = some (stored_int dm n) := by
  have hm : matchLiteral "ULPM".toList ("ULPM ".toList ++ fmt_d n) = some (' ' :: fmt_d n) :=
    (matchLiteral_eq_some _ _ _).2 rfl
  unfold sscanf_ULPM_d
  rw [hm]
  simp only []
  rw [show skipWhite (' ' :: fmt_d n) = skipWhite (fmt_d n) from rfl, (fmt_d_spec dm n).2.1,
    (fmt_d_spec dm n).1]

theorem classify_cases (B : Nat) {dm : DataModel} (text : CStr) (l : Locals)
    (h : RxMessageHandler_classify B dm text = some l) :
    (∃ tok, sscanf_UPGRADE_s text = some tok ∧ tok.length < 256 ∧
        l = ⟨snprintf B MESSAGE_UPGRADE_SUCCESS, 0, tok, false⟩) ∨
      (sscanf_UPGRADE_s text = none ∧ text = "REBOOT".toList ∧
        l = ⟨snprintf B MESSAGE_REBOOT_SUCCESS, 0, [], true⟩) ∨
      (∃ n, sscanf_UPGRADE_s text = none ∧ text ≠ "REBOOT".toList ∧
        sscanf_ULPM_d dm text = some n ∧ l = ⟨snprintf B (MESSAGE_ULPM_SUCCESS n), n, [], false⟩) ∨
      (sscanf_UPGRADE_s text = none ∧ text ≠ "REBOOT".toList ∧ sscanf_ULPM_d dm text = none ∧
        l = ⟨snprintf B (MESSAGE_FAIL text), 0, [], false⟩) := by
  unfold RxMessageHandler_classify at h
  cases hU : sscanf_UPGRADE_s text with
  | some tok =>
    rw [hU] at h
    simp only [] at h
    by_cases hl : tok.length < 256
    · rw [if_pos hl] at h
      exact Or.inl ⟨tok, rfl, hl, (Option.some.inj h).symm⟩
    · rw [if_neg hl] at h
      exact absurd h (by simp)
  | none =>
    rw [hU] at h
    simp only [] at h
    by_cases hR : text = "REBOOT".toList
    · rw [if_pos hR] at h
      exact Or.inr (Or.inl ⟨rfl, hR, (Option.some.inj h).symm⟩)
    · rw [if_neg hR] at h
      cases hL : sscanf_ULPM_d dm text with
      | some n =>
        rw [hL] at h
        exact Or.inr (Or.inr (Or.inl ⟨n, rfl, hR, rfl, (Option.some.inj h).symm⟩))
      | none =>
        rw [hL] at h
        exact Or.inr (Or.inr (Or.inr ⟨rfl, hR, rfl, (Option.some.inj h).symm⟩))

theorem classify_defined (B : Nat) (dm : DataModel) (text : CStr) (hfit : text.length < B)
    (hmax : B ≤ 250) :
    ∃ l, RxMessageHandler_classify B dm text = some l := by
  unfold RxMessageHandler_classify
  cases hU : sscanf_UPGRADE_s text with
  | some tok =>
    have := (sscanf_UPGRADE_s_bound text tok hU).2.2
    simp only []
    rw [if_pos (by omega)]
    exact ⟨_, rfl⟩
  | none =>
    simp only []
    by_cases hR : text = "REBOOT".toList
    · rw [if_pos hR]; exact ⟨_, rfl⟩
    · rw [if_neg hR]
      cases hL : sscanf_ULPM_d dm text with
      | some n => exact ⟨_, rfl⟩
      | none => exact ⟨_, rfl⟩

theorem SetText_not_mem_nil (x : CStr) : Effect.le_sms_SetText x ∉ ([] : List Effect) :=
  List.not_mem_nil _

/-- What the text branch does once the parse result `l` and its actions `acts` are known. -/
theorem handler_text_reply (B : Nat) {dm : DataModel} (e : RxEnv) (l : Locals) (acts : List Effect)
    (hfmt : e.formatIsText = true) (hget : e.le_sms_GetText = .LE_OK)
    (hc : RxMessageHandler_classify B dm e.text = some l)
    (ha : RxMessageHandler_actions e.proc l = some acts)
    (hacts : ∀ x, Effect.le_sms_SetText x ∉ acts) :
    ∃ tr, RxMessageHandler B dm e = some tr ∧ processEvents tr = processEvents acts ∧
      Effect.le_sms_Create ∈ tr ∧
      (∀ x, Effect.le_sms_SetText x ∈ tr → x = l.textReturn) ∧
      (e.send.le_sms_Create = true → e.send.le_sms_SetDestination = .LE_OK →
        Effect.le_sms_SetText l.textReturn ∈ tr) := by
  obtain ⟨pre, h₁, h₂, h₃, -, h₄, h₅⟩ := handler_text B e l acts hfmt hget hc ha
  refine ⟨_, h₁, ?_, List.mem_append_left _ h₃, ?_, fun a b => List.mem_append_left _ (h₅ a b)⟩
  · unfold processEvents at h₂ ⊢
    rw [List.filter_append, h₂, List.nil_append]
  · intro x hx
    rcases List.mem_append.1 hx with hx | hx
    · exact h₄ x hx
    · exact absurd hx (hacts x)

theorem snprintf_ne (B : Nat) (c d : Char) (s s' : CStr) (hB : 2 ≤ B) (hcd : c ≠ d) :
    snprintf B (c :: s) ≠ d :: s' := by
  obtain ⟨k, hk⟩ : ∃ k, B - 1 = k + 1 := ⟨B - 2, by omega⟩
  unfold snprintf
  rw [hk, List.take_succ_cons]
  intro h
  exact hcd (List.cons.inj h).1

theorem system_mem_iff (c : CStr) (tr : List Effect) :
    Effect.system c ∈ tr ↔ Effect.system c ∈ processEvents tr := by
  unfold processEvents
  rw [List.mem_filter]
  exact ⟨fun h => ⟨h, rfl⟩, fun h => h.1⟩

theorem processEvents_upgrade (p : ProcEnv) (tok : CStr) :
    processEvents (Effect.log .info "Running upgrade: %s" :: StartProcess p
        "/home/root/sms_scripts".toList ("./upgrade.sh ".toList ++ tok))
      = [.chdir "/home/root/sms_scripts".toList, .system ("./upgrade.sh ".toList ++ tok)] :=
  processEvents_StartProcess p _ _

theorem upgrade_no_SetText (p : ProcEnv) (tok x : CStr) :
    Effect.le_sms_SetText x ∉ (Effect.log .info "Running upgrade: %s" :: StartProcess p
        "/home/root/sms_scripts".toList ("./upgrade.sh ".toList ++ tok)) := by
  intro hx
  rcases List.mem_cons.1 hx with hx | hx
  · exact absurd hx (by simp)
  · exact absurd hx (StartProcess_no_SetText _ _ _ _)

theorem ulpm_no_SetText (p : ProcEnv) (n : Int) (x : CStr) :
    Effect.le_sms_SetText x ∉ (if 0 < n then StartProcess p "/home/root/sms_scripts".toList
      ("./ulpm.sh ".toList ++ fmt_d n) else []) := by
  by_cases hn : 0 < n
  · rw [if_pos hn]; exact StartProcess_no_SetText _ _ _ _
  · rw [if_neg hn]; exact List.not_mem_nil _

/-- The text branch, by parse result: the launch events of the whole trace. -/
theorem handler_text_cases (B : Nat) (dm : DataModel) (e : RxEnv) (hmax : B ≤ 250)
    (hfmt : e.formatIsText = true) (hget : e.le_sms_GetText = .LE_OK)
    (hfit : e.text.length < B) :
    ∃ l tr, RxMessageHandler_classify B dm e.text = some l ∧ RxMessageHandler B dm e = some tr ∧
      Effect.le_sms_Create ∈ tr ∧
      (∀ x, Effect.le_sms_SetText x ∈ tr → x = l.textReturn) ∧
      (e.send.le_sms_Create = true → e.send.le_sms_SetDestination = .LE_OK →
        Effect.le_sms_SetText l.textReturn ∈ tr) ∧
      ((∃ tok, sscanf_UPGRADE_s e.text = some tok ∧
          l = ⟨snprintf B MESSAGE_UPGRADE_SUCCESS, 0, tok, false⟩ ∧
          processEvents tr = [.chdir "/home/root/sms_scripts".toList,
            .system ("./upgrade.sh ".toList ++ tok)]) ∨
        (sscanf_UPGRADE_s e.text = none ∧ e.text = "REBOOT".toList ∧
          l = ⟨snprintf B MESSAGE_REBOOT_SUCCESS, 0, [], true⟩ ∧
          processEvents tr = [.chdir "/home/root".toList, .system "/sbin/reboot".toList]) ∨
        (∃ n, ParsesAsSleep dm e.text n ∧ l = ⟨snprintf B (MESSAGE_ULPM_SUCCESS n), n, [], false⟩ ∧
          processEvents tr = if 0 < n then [.chdir "/home/root/sms_scripts".toList,
            .system ("./ulpm.sh ".toList ++ fmt_d n)] else []) ∨
        (ParsesAsUnknown dm e.text ∧ l = ⟨snprintf B (MESSAGE_FAIL e.text), 0, [], false⟩ ∧
          processEvents tr = [])) := by
  obtain ⟨l, hl⟩ := classify_defined B dm e.text hfit hmax
  rcases classify_cases _ _ _ hl with ⟨tok, c₁, -, rfl⟩ | ⟨c₁, c₂, rfl⟩ | ⟨n, c₁, c₂, c₃, rfl⟩ |
    ⟨c₁, c₂, c₃, rfl⟩
  · obtain ⟨-, b₂, b₃⟩ := sscanf_UPGRADE_s_bound e.text tok c₁
    obtain ⟨tr, t₁, t₂, t₃, t₄, t₅⟩ := handler_text_reply B e _ _ hfmt hget hl
      (actions_upgrade e.proc _ tok b₂ (by omega)) (upgrade_no_SetText _ _)
    exact ⟨_, tr, hl, t₁, t₃, t₄, t₅,
      Or.inl ⟨tok, c₁, rfl, t₂.trans (processEvents_upgrade _ _)⟩⟩
  · obtain ⟨tr, t₁, t₂, t₃, t₄, t₅⟩ := handler_text_reply B e _ _ hfmt hget hl
      (actions_reboot e.proc _) (fun x => StartProcess_no_SetText _ _ _ x)
    exact ⟨_, tr, hl, t₁, t₃, t₄, t₅,
      Or.inr (Or.inl ⟨c₁, c₂, rfl, t₂.trans (processEvents_StartProcess _ _ _)⟩)⟩
  · obtain ⟨r₁, r₂⟩ := sscanf_ULPM_d_range e.text n c₃
    obtain ⟨tr, t₁, t₂, t₃, t₄, t₅⟩ := handler_text_reply B e _ _ hfmt hget hl
      (actions_ulpm e.proc _ n r₁ r₂) (ulpm_no_SetText _ _)
    refine ⟨_, tr, hl, t₁, t₃, t₄, t₅, Or.inr (Or.inr (Or.inl ⟨n, ⟨c₁, c₂, c₃⟩, rfl, ?_⟩))⟩
    rw [t₂]
    by_cases hn : 0 < n
    · rw [if_pos hn, if_pos hn]; exact processEvents_StartProcess _ _ _
    · rw [if_neg hn, if_neg hn]; rfl
  · obtain ⟨tr, t₁, t₂, t₃, t₄, t₅⟩ := handler_text_reply B e _ _ hfmt hget hl
      (actions_idle e.proc _) SetText_not_mem_nil
    exact ⟨_, tr, hl, t₁, t₃, t₄, t₅, Or.inr (Or.inr (Or.inr ⟨⟨c₁, c₂, c₃⟩, rfl, t₂⟩))⟩

theorem filter_isSystem_of_processEvents_nil (tr : List Effect) (h : processEvents tr = []) :
    tr.filter Effect.isSystem = [] := by
  unfold processEvents at h
  rw [List.filter_eq_nil_iff] at h ⊢
  intro a ha hs
  apply h a ha
  cases a <;> first | rfl | cases hs

theorem filter_isSystem_StartProcess (p : ProcEnv) (wd cmd : CStr) :
    (StartProcess p wd cmd).filter Effect.isSystem = [.system cmd] := by
  unfold StartProcess
  by_cases h₁ : p.chdir wd = 0 <;> by_cases h₂ : p.system cmd = 0 <;>
    simp [h₁, h₂, Effect.isSystem]

/-- The text branch when `le_sms_GetText` fails: no parsing, no launch event before the
actions. -/
theorem receive_text_failed (B : Nat) (dm : DataModel) (e : RxEnv) (hfmt : e.formatIsText = true)
    (hget : e.le_sms_GetText ≠ .LE_OK) :
    ∃ pre, RxMessageHandler_receive B dm e = some (pre, Locals.init) ∧ processEvents pre = [] := by
  obtain ⟨s₁, -⟩ := smsmo_SendMessage_trace e.send e.tel Locals.init.textReturn
  unfold processEvents at s₁
  have p₁ : ∀ a b, (Effect.log a b).isProcess = false := fun _ _ => rfl
  have p₂ : Effect.le_sms_DeleteFromStorage.isProcess = false := rfl
  have p₃ : ∀ m, (Effect.le_sms_Delete m).isProcess = false := fun _ => rfl
  have p₄ : ∀ r a b, (logResult r a b).isProcess = false := by
    intro r a b
    unfold logResult
    by_cases h : r = .LE_OK <;> simp [h, Effect.isProcess]
  simp only [RxMessageHandler_receive, RxMessageHandler_read, hfmt, hget, ne_eq,
    not_false_eq_true, if_true]
  refine ⟨_, rfl, ?_⟩
  simp [processEvents, List.filter_append, List.filter_cons, s₁, p₁, p₂, p₃, p₄]

/-! ## The command patterns and the scans -/

theorem skipWhite_split (r : CStr) :
    ∃ ws, r = ws ++ skipWhite r ∧ ∀ w ∈ ws, isspace w = true :=
  ⟨r.takeWhile isspace, (List.takeWhile_append_dropWhile isspace r).symm,
    fun _ hw => List.mem_takeWhile_imp hw⟩

theorem skipWhite_append (ws : CStr) (c : Char) (rest : CStr)
    (hws : ∀ w ∈ ws, isspace w = true) (hc : isspace c = false) :
    skipWhite (ws ++ c :: rest) = c :: rest := by
  induction ws with
  | nil => exact skipWhite_of_head c rest hc
  | cons w ws ih =>
    have hw := hws w (List.mem_cons_self _ _)
    have : skipWhite (w :: (ws ++ c :: rest)) = skipWhite (ws ++ c :: rest) := by
      simp [skipWhite, List.dropWhile, hw]
    rw [List.cons_append, this]
    exact ih (fun x hx => hws x (List.mem_cons_of_mem _ hx))

theorem takeWhile_ne_nil {α : Type} (p : α → Bool) (l : List α) (h : l.takeWhile p ≠ []) :
    ∃ a r, l = a :: r ∧ p a = true := by
  cases l with
  | nil => exact absurd rfl h
  | cons a r =>
    by_cases ha : p a = true
    · exact ⟨a, r, rfl, ha⟩
    · rw [List.takeWhile_cons, if_neg ha] at h
      exact absurd rfl h

theorem takeWhile_cons_ne_nil {α : Type} (p : α → Bool) (a : α) (r : List α) (h : p a = true) :
    (a :: r).takeWhile p ≠ [] := by
  rw [List.takeWhile_cons, if_pos h]
  exact List.cons_ne_nil _ _

/-- The `"UPGRADE %s"` scan fails exactly on the texts that are not an upgrade command. -/
theorem sscanf_UPGRADE_s_eq_none_iff (s : CStr) :
    sscanf_UPGRADE_s s = none ↔ ¬ IsUpgradeCommand s := by
  constructor
  · rintro h ⟨ws, c, rest, hs, hws, hc⟩
    have hm : matchLiteral "UPGRADE".toList s = some (ws ++ c :: rest) :=
      (matchLiteral_eq_some _ _ _).2 (by rw [hs, List.append_assoc])
    unfold sscanf_UPGRADE_s at h
    rw [hm] at h
    simp only [conv_s, skipWhite_append ws c rest hws hc, skipWhite_of_head c rest hc] at h
    split at h
    · rename_i hnil
      exact takeWhile_cons_ne_nil _ c rest (by simp [hc]) hnil
    · exact Option.noConfusion h
  · intro hno
    cases hsc : sscanf_UPGRADE_s s with
    | none => rfl
    | some tok =>
      exfalso
      apply hno
      unfold sscanf_UPGRADE_s at hsc
      cases hm : matchLiteral "UPGRADE".toList s with
      | none => rw [hm] at hsc; exact Option.noConfusion hsc
      | some rest₀ =>
        rw [hm] at hsc
        have hs := (matchLiteral_eq_some _ _ _).1 hm
        simp only [conv_s] at hsc
        split at hsc
        · exact Option.noConfusion hsc
        · rename_i hne
          obtain ⟨c, r, hr, hc⟩ := takeWhile_ne_nil _ _ hne
          obtain ⟨ws₁, e₁, w₁⟩ := skipWhite_split rest₀
          obtain ⟨ws₂, e₂, w₂⟩ := skipWhite_split (skipWhite rest₀)
          refine ⟨ws₁ ++ ws₂, c, r, ?_, ?_, by simpa using hc⟩
          · rw [hs, List.append_assoc, List.append_assoc, ← hr, ← e₂, ← e₁]
          · intro w hw
            rcases List.mem_append.1 hw with hw | hw
            · exact w₁ w hw
            · exact w₂ w hw

/-- The `"ULPM %d"` scan fails exactly on the texts that are not a sleep command. -/
theorem sscanf_ULPM_d_eq_none_iff (dm : DataModel) (s : CStr) :
    sscanf_ULPM_d dm s = none ↔ ¬ IsUlpmCommand s := by
  constructor
  · rintro h ⟨ws, sign, d, rest, hs, hws, hsign, hd⟩
    have hdsp := isdigit_not_isspace d hd
    have hdsg := isdigit_not_sign d hd
    have hdig := takeWhile_cons_ne_nil isdigit d rest hd
    unfold sscanf_ULPM_d at h
    rcases hsign with rfl | rfl | rfl
    · have hm : matchLiteral "ULPM".toList s = some (ws ++ d :: rest) :=
        (matchLiteral_eq_some _ _ _).2 (by rw [hs, List.append_nil, List.append_assoc])
      rw [hm] at h
      simp only [skipWhite_append ws d rest hws hdsp] at h
      unfold conv_d at h
      rw [skipWhite_of_head d rest hdsp] at h
      split at h
      · rename_i r heq; exact hdsg.1 (List.cons.inj heq).1
      · rename_i r heq; exact hdsg.2 (List.cons.inj heq).1
      · simp only [] at h
        rw [if_neg hdig] at h
        exact Option.noConfusion h
    · have hm : matchLiteral "ULPM".toList s = some (ws ++ '-' :: d :: rest) :=
        (matchLiteral_eq_some _ _ _).2 (by rw [hs]; simp)
      rw [hm] at h
      simp only [skipWhite_append ws '-' (d :: rest) hws (by decide)] at h
      unfold conv_d at h
      rw [skipWhite_of_head '-' (d :: rest) (by decide)] at h
      simp only [] at h
      rw [if_neg hdig] at h
      exact Option.noConfusion h
    · have hm : matchLiteral "ULPM".toList s = some (ws ++ '+' :: d :: rest) :=
        (matchLiteral_eq_some _ _ _).2 (by rw [hs]; simp)
      rw [hm] at h
      simp only [skipWhite_append ws '+' (d :: rest) hws (by decide)] at h
      unfold conv_d at h
      rw [skipWhite_of_head '+' (d :: rest) (by decide)] at h
      simp only [] at h
      rw [if_neg hdig] at h
      exact Option.noConfusion h
  · intro hno
    cases hsc : sscanf_ULPM_d dm s with
    | none => rfl
    | some n =>
      exfalso
      apply hno
      unfold sscanf_ULPM_d at hsc
      cases hm : matchLiteral "ULPM".toList s with
      | none => rw [hm] at hsc; exact Option.noConfusion hsc
      | some rest₀ =>
        rw [hm] at hsc
        have hs := (matchLiteral_eq_some _ _ _).1 hm
        obtain ⟨ws₁, e₁, w₁⟩ := skipWhite_split rest₀
        obtain ⟨ws₂, e₂, w₂⟩ := skipWhite_split (skipWhite rest₀)
        have hws : ∀ w ∈ ws₁ ++ ws₂, isspace w = true := by
          intro w hw
          rcases List.mem_append.1 hw with hw | hw
          · exact w₁ w hw
          · exact w₂ w hw
        have hrest : s = "ULPM".toList ++ (ws₁ ++ ws₂) ++ skipWhite (skipWhite rest₀) := by
          rw [hs, List.append_assoc, List.append_assoc, ← e₂, ← e₁]
        simp only [conv_d] at hsc
        split at hsc
        · rename_i r heq
          split at hsc
          · exact Option.noConfusion hsc
          · rename_i hne
            obtain ⟨d, r', hr, hd⟩ := takeWhile_ne_nil _ _ hne
            exact ⟨ws₁ ++ ws₂, ['-'], d, r', by rw [hrest, heq, hr]; simp, hws,
              Or.inr (Or.inl rfl), hd⟩
        · rename_i r heq
          split at hsc
          · exact Option.noConfusion hsc
          · rename_i hne
            obtain ⟨d, r', hr, hd⟩ := takeWhile_ne_nil _ _ hne
            exact ⟨ws₁ ++ ws₂, ['+'], d, r', by rw [hrest, heq, hr]; simp, hws,
              Or.inr (Or.inr rfl), hd⟩
        · split at hsc
          · exact Option.noConfusion hsc
          · rename_i hne
            obtain ⟨d, r', hr, hd⟩ := takeWhile_ne_nil _ _ hne
            exact ⟨ws₁ ++ ws₂, [], d, r', by rw [hrest, hr]; simp, hws, Or.inl rfl, hd⟩

theorem StartProcess_quiet (p : ProcEnv) (wd cmd : CStr) :
    ∀ x ∈ StartProcess p wd cmd, x.isReplyCall = false ∧ x ≠ .le_sms_DeleteFromStorage := by
  unfold StartProcess
  by_cases c₁ : p.chdir wd = 0 <;> by_cases c₂ : p.system cmd = 0 <;>
    simp [c₁, c₂, Effect.isReplyCall]

/-- The actions make no telephony call. -/
theorem actions_quiet (p : ProcEnv) (l : Locals) (acts : List Effect)
    (h : RxMessageHandler_actions p l = some acts) :
    ∀ x ∈ acts, x.isReplyCall = false ∧ x ≠ .le_sms_DeleteFromStorage := by
  have hup : ∀ a, RxMessageHandler_upgrade p l = some a →
      ∀ x ∈ a, x.isReplyCall = false ∧ x ≠ .le_sms_DeleteFromStorage := by
    intro a ha
    unfold RxMessageHandler_upgrade at ha
    split at ha
    · split at ha
      · rw [← Option.some.inj ha]
        intro x hx
        rcases List.mem_cons.1 hx with rfl | hx
        · exact ⟨rfl, by simp⟩
        · exact StartProcess_quiet _ _ _ x hx
      · exact Option.noConfusion ha
    · rw [← Option.some.inj ha]
      intro x hx
      exact absurd hx (List.not_mem_nil _)
  have hul : ∀ a, RxMessageHandler_ulpm p l = some a →
      ∀ x ∈ a, x.isReplyCall = false ∧ x ≠ .le_sms_DeleteFromStorage := by
    intro a ha
    unfold RxMessageHandler_ulpm at ha
    split at ha
    · split at ha
      · rw [← Option.some.inj ha]
        exact StartProcess_quiet _ _ _
      · exact Option.noConfusion ha
    · rw [← Option.some.inj ha]
      intro x hx
      exact absurd hx (List.not_mem_nil _)
  have hre : ∀ x ∈ RxMessageHandler_reboot p l,
      x.isReplyCall = false ∧ x ≠ .le_sms_DeleteFromStorage := by
    unfold RxMessageHandler_reboot
    split
    · exact StartProcess_quiet _ _ _
    · intro x hx
      exact absurd hx (List.not_mem_nil _)
  unfold RxMessageHandler_actions at h
  split at h
  · exact Option.noConfusion h
  · rename_i a₁ h₁
    split at h
    · exact Option.noConfusion h
    · rename_i a₃ h₃
      rw [← Option.some.inj h]
      intro x hx
      rcases List.mem_append.1 hx with hx | hx
      · rcases List.mem_append.1 hx with hx | hx
        · exact hup a₁ h₁ x hx
        · exact hre x hx
      · exact hul a₃ h₃ x hx

theorem filter_isReplyCall_quiet (acts : List Effect)
    (h : ∀ x ∈ acts, x.isReplyCall = false ∧ x ≠ .le_sms_DeleteFromStorage) :
    acts.filter Effect.isReplyCall = [] := by
  rw [List.filter_eq_nil_iff]
  intro a ha hr
  rw [(h a ha).1] at hr
  exact Bool.noConfusion hr

/-- The outgoing-message calls of `smsmo_SendMessage` are those of one reply attempt. -/
theorem smsmo_SendMessage_replyCalls (s : smsMO.SendEnv) (dest text : CStr) :
    (smsMO.smsmo_SendMessage s dest text).1.filter Effect.isReplyCall
      = replyCalls s dest text := by
  unfold smsMO.smsmo_SendMessage replyCalls
  by_cases h₀ : s.le_sms_Create = false
  · simp [h₀, Effect.isReplyCall]
  · by_cases h₁ : s.le_sms_SetDestination = .LE_OK
    · by_cases h₂ : s.le_sms_SetText = .LE_OK
      · by_cases h₃ : s.le_sms_Send = .LE_OK <;>
          simp [h₀, h₁, h₂, h₃, Effect.isReplyCall]
      · simp [h₀, h₁, h₂, Effect.isReplyCall]
    · simp [h₀, h₁, Effect.isReplyCall]

/-- The outgoing-message calls of the text branch, before the actions, are those of one reply
attempt to `tel` with the text `textReturn`. -/
theorem receive_text_calls (B : Nat) {dm : DataModel} (e : RxEnv) (l : Locals)
    (hfmt : e.formatIsText = true) (hget : e.le_sms_GetText = .LE_OK)
    (hc : RxMessageHandler_classify B dm e.text = some l) (pre : List Effect) (l' : Locals)
    (hrec : RxMessageHandler_receive B dm e = some (pre, l')) :
    pre.filter Effect.isReplyCall = replyCalls e.send e.tel l.textReturn := by
  have s₁ := smsmo_SendMessage_replyCalls e.send e.tel l.textReturn
  have q₁ : ∀ a b, (Effect.log a b).isReplyCall = false := fun _ _ => rfl
  have q₂ : Effect.le_sms_DeleteFromStorage.isReplyCall = false := rfl
  have q₃ : ∀ m, (Effect.le_sms_Delete m).isReplyCall = false := fun _ => rfl
  have q₄ : ∀ r a b, (logResult r a b).isReplyCall = false := by
    intro r a b
    unfold logResult
    by_cases h : r = .LE_OK <;> simp [h, Effect.isReplyCall]
  simp only [RxMessageHandler_receive, RxMessageHandler_read, hfmt, hget, hc, ne_eq,
    not_true_eq_false, if_false, if_true, Option.some.injEq, Prod.mk.injEq] at hrec
  rw [← hrec.1]
  simp [List.filter_append, List.filter_cons, s₁, q₁, q₂, q₃, q₄]

/-- The outgoing-message calls of a whole run of the text branch are those of one reply attempt
to `tel` with the text `textReturn`. -/
theorem handler_text_calls (B : Nat) {dm : DataModel} (e : RxEnv) (l : Locals)
    (hfmt : e.formatIsText = true) (hget : e.le_sms_GetText = .LE_OK)
    (hc : RxMessageHandler_classify B dm e.text = some l) (tr : List Effect)
    (htr : RxMessageHandler B dm e = some tr) :
    tr.filter Effect.isReplyCall = replyCalls e.send e.tel l.textReturn := by
  unfold RxMessageHandler at htr
  split at htr
  · exact Option.noConfusion htr
  · rename_i pre l' hrec
    split at htr
    · exact Option.noConfusion htr
    · rename_i acts ha
      rw [← Option.some.inj htr, List.filter_append,
        receive_text_calls B e l hfmt hget hc pre l' hrec,
        filter_isReplyCall_quiet acts (actions_quiet _ _ _ ha), List.append_nil]

/-- A run of the text branch deletes the received message from storage. -/
theorem handler_text_deletes (B : Nat) {dm : DataModel} (e : RxEnv) (l : Locals)
    (hfmt : e.formatIsText = true) (hget : e.le_sms_GetText = .LE_OK)
    (hc : RxMessageHandler_classify B dm e.text = some l) (tr : List Effect)
    (htr : RxMessageHandler B dm e = some tr) :
    Effect.le_sms_DeleteFromStorage ∈ tr := by
  obtain ⟨pre, r₁, -, -, r₄, -⟩ := receive_text B e l hfmt hget hc
  unfold RxMessageHandler at htr
  rw [r₁] at htr
  simp only [] at htr
  split at htr
  · exact Option.noConfusion htr
  · rw [← Option.some.inj htr]
    exact List.mem_append_left _ r₄

/-- Every run of the handler splits into a part without launch events and the actions. The
actions make no telephony call and hold at most one `system` call; when there is an action,
the first part holds the whole reply attempt and the deletion from storage. -/
theorem handler_split (B : Nat) (dm : DataModel) (e : RxEnv) (hmax : B ≤ 250)
    (hfit : e.text.length < B) :
    ∃ pre acts, RxMessageHandler B dm e = some (pre ++ acts) ∧ processEvents pre = [] ∧
      (acts ≠ [] →
        (∃ l, RxMessageHandler_classify B dm e.text = some l ∧
          pre.filter Effect.isReplyCall = replyCalls e.send e.tel l.textReturn) ∧
        Effect.le_sms_DeleteFromStorage ∈ pre) ∧
      (∀ y ∈ acts, y.isReplyCall = false ∧ y ≠ .le_sms_DeleteFromStorage) ∧
      (acts.filter Effect.isSystem).length ≤ 1 ∧
      (e.formatIsText = true → e.le_sms_GetText = .LE_OK → ParsesAsUnknown dm e.text →
        acts = []) := by
  have hinit : RxMessageHandler_actions e.proc Locals.init = some [] := actions_idle e.proc []
  have hnil : ∀ y ∈ ([] : List Effect),
      y.isReplyCall = false ∧ y ≠ .le_sms_DeleteFromStorage :=
    fun y hy => absurd hy (List.not_mem_nil _)
  by_cases hfmt : e.formatIsText = true
  · by_cases hget : e.le_sms_GetText = .LE_OK
    · obtain ⟨l, hl⟩ := classify_defined B dm e.text hfit hmax
      have key : ∀ acts, RxMessageHandler_actions e.proc l = some acts →
          (acts.filter Effect.isSystem).length ≤ 1 → (ParsesAsUnknown dm e.text → acts = []) →
          ∃ pre acts, RxMessageHandler B dm e = some (pre ++ acts) ∧ processEvents pre = [] ∧
            (acts ≠ [] →
              (∃ l, RxMessageHandler_classify B dm e.text = some l ∧
                pre.filter Effect.isReplyCall = replyCalls e.send e.tel l.textReturn) ∧
              Effect.le_sms_DeleteFromStorage ∈ pre) ∧
            (∀ y ∈ acts, y.isReplyCall = false ∧ y ≠ .le_sms_DeleteFromStorage) ∧
            (acts.filter Effect.isSystem).length ≤ 1 ∧
            (e.formatIsText = true → e.le_sms_GetText = .LE_OK → ParsesAsUnknown dm e.text →
              acts = []) := by
        intro acts ha hcount hunk
        obtain ⟨pre, t₁, t₂, -, t₄, -⟩ := handler_text B e l acts hfmt hget hl ha
        have hq := actions_quiet _ _ _ ha
        have hcalls := handler_text_calls B e l hfmt hget hl _ t₁
        rw [List.filter_append, filter_isReplyCall_quiet acts hq, List.append_nil] at hcalls
        exact ⟨pre, acts, t₁, t₂, fun _ => ⟨⟨l, hl, hcalls⟩, t₄⟩, hq, hcount,
          fun _ _ h => hunk h⟩
      rcases classify_cases _ _ _ hl with ⟨tok, c₁, -, rfl⟩ | ⟨c₁, c₂, rfl⟩ |
        ⟨n, c₁, c₂, c₃, rfl⟩ | ⟨c₁, c₂, c₃, rfl⟩
      · obtain ⟨-, b₂, b₃⟩ := sscanf_UPGRADE_s_bound e.text tok c₁
        refine key _ (actions_upgrade e.proc _ tok b₂ (by omega)) ?_ ?_
        · rw [List.filter_cons_of_neg (by decide), filter_isSystem_StartProcess]
          exact Nat.le_refl _
        · intro h
          rw [h.1] at c₁
          exact Option.noConfusion c₁
      · refine key _ (actions_reboot e.proc _) ?_ (fun h => absurd c₂ h.2.1)
        rw [filter_isSystem_StartProcess]
        exact Nat.le_refl _
      · obtain ⟨r₁, r₂⟩ := sscanf_ULPM_d_range e.text n c₃
        refine key _ (actions_ulpm e.proc _ n r₁ r₂) ?_ ?_
        · by_cases hn : 0 < n
          · rw [if_pos hn, filter_isSystem_StartProcess]
            exact Nat.le_refl _
          · rw [if_neg hn]
            exact Nat.zero_le _
        · intro h
          have := h.2.2
          rw [c₃] at this
          exact Option.noConfusion this
      · exact key _ (actions_idle e.proc _) (Nat.zero_le _) (fun _ => rfl)
    · obtain ⟨pre, h₁, h₂⟩ := receive_text_failed B dm e hfmt hget
      refine ⟨pre, [], ?_, h₂, fun h => absurd rfl h, hnil, Nat.zero_le _,
        fun _ h => absurd h hget⟩
      simp only [RxMessageHandler, h₁, hinit]
  · refine ⟨[.log .info "A New SMS message is received with ref.%p",
        .log .warn "Warning! I read only Text messages!", .le_sms_Delete .msgRef], [], ?_, rfl,
      fun h => absurd rfl h, hnil, Nat.zero_le _, fun h => absurd h hfmt⟩
    simp only [RxMessageHandler, RxMessageHandler_receive, hfmt, hinit]
    rfl

/-! ## Claims -/

/-- C1 as stated fails: the body `"UPGRADEv9"` has none of the prefixes `"UPGRADE "`,
`"ULPM "`, is not `"REBOOT"`, and is handled as an upgrade to version `v9`, because the white
space in the format `"UPGRADE %s"` also matches no character at all. -/
theorem C1_counterexample :
    ¬ ∀ (LE_SMS_TEXT_MAX_BYTES : Nat) (dm : DataModel) (s : CStr),
      ¬ "UPGRADE ".toList <+: s → s ≠ "REBOOT".toList → ¬ "ULPM ".toList <+: s →
      RxMessageHandler_classify LE_SMS_TEXT_MAX_BYTES dm s
        = some ⟨snprintf LE_SMS_TEXT_MAX_BYTES (MESSAGE_FAIL s), 0, [], false⟩ := by
  intro h
  have h₁ := h 161 .LP64 "UPGRADEv9".toList (by decide) (by decide) (by decide)
  revert h₁
  decide

/-- C1, amended: a body that is not an upgrade command (`UPGRADE`, optional white space, a
character that is not white space), is not `"REBOOT"` and is not a sleep command (`ULPM`,
optional white space, optional sign, a decimal digit) falls through to the last branch: the
reply is the `"Unknown command '%s'"` template filled with the body, no version code, reboot
flag or sleep duration is set, and the action step does nothing. -/
theorem C1_unknown (LE_SMS_TEXT_MAX_BYTES : Nat) (dm : DataModel) (p : ProcEnv) (s : CStr)
    (hU : ¬ IsUpgradeCommand s) (hR : s ≠ "REBOOT".toList) (hL : ¬ IsUlpmCommand s) :
    RxMessageHandler_classify LE_SMS_TEXT_MAX_BYTES dm s
        = some ⟨snprintf LE_SMS_TEXT_MAX_BYTES (MESSAGE_FAIL s), 0, [], false⟩
      ∧ RxMessageHandler_actions p ⟨snprintf LE_SMS_TEXT_MAX_BYTES (MESSAGE_FAIL s), 0, [], false⟩
        = some [] :=
  ⟨classify_unknown _ dm s ((sscanf_UPGRADE_s_eq_none_iff s).2 hU) hR
      ((sscanf_ULPM_d_eq_none_iff dm s).2 hL),
    actions_idle p _⟩

/-- C1, amended, at the body `ULPMODE`, which starts with the keyword `ULPM` and is no sleep
command; the bodies `UPGRADE`, `UPGRADE ` and `ULPM -` are evaluated as well. -/
theorem C1_unknown_witness :
    (¬ IsUpgradeCommand "ULPMODE".toList ∧ "ULPMODE".toList ≠ "REBOOT".toList ∧
      ¬ IsUlpmCommand "ULPMODE".toList) ∧
    (RxMessageHandler_classify 161 .LP64 "ULPMODE".toList
        = some ⟨snprintf 161 (MESSAGE_FAIL "ULPMODE".toList), 0, [], false⟩
      ∧ RxMessageHandler_actions (sampleEnv "ULPMODE".toList).proc
          ⟨snprintf 161 (MESSAGE_FAIL "ULPMODE".toList), 0, [], false⟩ = some []) ∧
    RxMessageHandler_classify 161 .LP64 "ULPMODE".toList
      = some ⟨"Unknown command 'ULPMODE'".toList, 0, [], false⟩ ∧
    RxMessageHandler_classify 161 .LP64 "UPGRADE".toList
      = some ⟨"Unknown command 'UPGRADE'".toList, 0, [], false⟩ ∧
    RxMessageHandler_classify 161 .LP64 "UPGRADE ".toList
      = some ⟨"Unknown command 'UPGRADE '".toList, 0, [], false⟩ ∧
    RxMessageHandler_classify 161 .LP64 "ULPM -".toList
      = some ⟨"Unknown command 'ULPM -'".toList, 0, [], false⟩ :=
  ⟨⟨(sscanf_UPGRADE_s_eq_none_iff _).1 (by decide), by decide,
      (sscanf_ULPM_d_eq_none_iff .LP64 _).1 (by decide)⟩,
    C1_unknown 161 .LP64 (sampleEnv "ULPMODE".toList).proc "ULPMODE".toList
      ((sscanf_UPGRADE_s_eq_none_iff _).1 (by decide)) (by decide)
      ((sscanf_ULPM_d_eq_none_iff .LP64 _).1 (by decide)),
    by decide, by decide, by decide, by decide⟩

/-- C2: for a non-empty white-space-free token `t` such that `"UPGRADE " ++ t` fits the text
buffer, the handler stores `t` as the version code, the reply text is `"Upgrade started"`, and
the only launch is `./upgrade.sh t` after `chdir` to `/home/root/sms_scripts`. -/
theorem C2_upgrade (LE_SMS_TEXT_MAX_BYTES : Nat) (dm : DataModel) (e : RxEnv) (t : CStr)
    (hmin : 16 ≤ LE_SMS_TEXT_MAX_BYTES) (hmax : LE_SMS_TEXT_MAX_BYTES ≤ 250)
    (hfmt : e.formatIsText = true) (hget : e.le_sms_GetText = .LE_OK)
    (hbody : e.text = "UPGRADE ".toList ++ t) (hfit : e.text.length < LE_SMS_TEXT_MAX_BYTES)
    (hne : t ≠ []) (hws : ∀ c ∈ t, isspace c = false) :
    RxMessageHandler_classify LE_SMS_TEXT_MAX_BYTES dm e.text
        = some ⟨"Upgrade started".toList, 0, t, false⟩ ∧
      ∃ tr, RxMessageHandler LE_SMS_TEXT_MAX_BYTES dm e = some tr ∧
        (∀ x, Effect.le_sms_SetText x ∈ tr → x = "Upgrade started".toList) ∧
        (e.send.le_sms_Create = true → e.send.le_sms_SetDestination = .LE_OK →
          Effect.le_sms_SetText "Upgrade started".toList ∈ tr) ∧
        processEvents tr = [.chdir "/home/root/sms_scripts".toList,
          .system ("./upgrade.sh ".toList ++ t)] := by
  have hlen : t.length ≤ 241 := by
    rw [hbody, List.length_append] at hfit
    have : "UPGRADE ".toList.length = 8 := rfl
    omega
  have hc : RxMessageHandler_classify LE_SMS_TEXT_MAX_BYTES dm e.text
      = some ⟨"Upgrade started".toList, 0, t, false⟩ := by
    unfold RxMessageHandler_classify
    rw [hbody, sscanf_UPGRADE_s_token t hne hws]
    simp only []
    rw [if_pos (by omega), snprintf_of_fits _ _ (by
      have : MESSAGE_UPGRADE_SUCCESS.length = 15 := rfl
      omega)]
    rfl
  obtain ⟨pre, h₁, h₂, -, -, h₃, h₄⟩ :=
    handler_text _ e _ _ hfmt hget hc (actions_upgrade e.proc _ t hne (by omega))
  refine ⟨hc, _, h₁, ?_, ?_, ?_⟩
  · intro x hx
    rcases List.mem_append.1 hx with hx | hx
    · exact h₃ x hx
    · rcases List.mem_cons.1 hx with hx | hx
      · exact absurd hx (by simp)
      · exact absurd hx (StartProcess_no_SetText _ _ _ _)
  · intro a b
    exact List.mem_append_left _ (h₄ a b)
  · have hp : processEvents (Effect.log .info "Running upgrade: %s" :: StartProcess e.proc
        "/home/root/sms_scripts".toList ("./upgrade.sh ".toList ++ t))
        = [.chdir "/home/root/sms_scripts".toList, .system ("./upgrade.sh ".toList ++ t)] :=
      processEvents_StartProcess e.proc _ _
    unfold processEvents at h₂ hp ⊢
    rw [List.filter_append, h₂, hp]
    rfl

/-- C2 at the body `UPGRADE 1.2.3` with 161-byte text buffers. -/
theorem C2_upgrade_witness :
    (16 ≤ 161 ∧ 161 ≤ 250 ∧ (sampleEnv "UPGRADE 1.2.3".toList).formatIsText = true ∧
      (sampleEnv "UPGRADE 1.2.3".toList).le_sms_GetText = .LE_OK ∧
      (sampleEnv "UPGRADE 1.2.3".toList).text = "UPGRADE ".toList ++ "1.2.3".toList ∧
      (sampleEnv "UPGRADE 1.2.3".toList).text.length < 161 ∧ "1.2.3".toList ≠ [] ∧
      ∀ c ∈ "1.2.3".toList, isspace c = false) ∧
    (RxMessageHandler_classify 161 .LP64 (sampleEnv "UPGRADE 1.2.3".toList).text
        = some ⟨"Upgrade started".toList, 0, "1.2.3".toList, false⟩ ∧
      ∃ tr, RxMessageHandler 161 .LP64 (sampleEnv "UPGRADE 1.2.3".toList) = some tr ∧
        (∀ x, Effect.le_sms_SetText x ∈ tr → x = "Upgrade started".toList) ∧
        ((sampleEnv "UPGRADE 1.2.3".toList).send.le_sms_Create = true →
          (sampleEnv "UPGRADE 1.2.3".toList).send.le_sms_SetDestination = .LE_OK →
          Effect.le_sms_SetText "Upgrade started".toList ∈ tr) ∧
        processEvents tr = [.chdir "/home/root/sms_scripts".toList,
          .system ("./upgrade.sh ".toList ++ "1.2.3".toList)]) :=
  ⟨⟨by decide, by decide, rfl, rfl, rfl, by decide, by decide, by decide⟩,
    C2_upgrade 161 .LP64 (sampleEnv "UPGRADE 1.2.3".toList) "1.2.3".toList (by decide) (by decide)
      rfl rfl rfl (by decide) (by decide) (by decide)⟩

/-- C3: the handler replies `"Rebooting FX30"` and launches `/sbin/reboot` after `chdir` to
`/home/root` exactly when the body is the string `"REBOOT"`; for any other body the reply text
differs and `/sbin/reboot` is not launched. The reply is in the trace: its outgoing-message
calls are `le_sms_Create`, `le_sms_SetDestination tel`, `le_sms_SetText` with the reply text
and `le_sms_Send`, as far as the telephony service lets the attempt go. -/
theorem C3_reboot (LE_SMS_TEXT_MAX_BYTES : Nat) (dm : DataModel) (e : RxEnv)
    (hmin : 15 ≤ LE_SMS_TEXT_MAX_BYTES) (hmax : LE_SMS_TEXT_MAX_BYTES ≤ 250)
    (hfmt : e.formatIsText = true) (hget : e.le_sms_GetText = .LE_OK)
    (hfit : e.text.length < LE_SMS_TEXT_MAX_BYTES) :
    ∃ l tr, RxMessageHandler_classify LE_SMS_TEXT_MAX_BYTES dm e.text = some l ∧
      RxMessageHandler LE_SMS_TEXT_MAX_BYTES dm e = some tr ∧
      tr.filter Effect.isReplyCall = replyCalls e.send e.tel l.textReturn ∧
      ((l.textReturn = "Rebooting FX30".toList ∧
          processEvents tr = [.chdir "/home/root".toList, .system "/sbin/reboot".toList])
        ↔ e.text = "REBOOT".toList) ∧
      (e.text ≠ "REBOOT".toList →
        l.textReturn ≠ "Rebooting FX30".toList ∧
        Effect.system "/sbin/reboot".toList ∉ tr) := by
  obtain ⟨l, tr, h₁, h₂, -, -, -, h₄⟩ := handler_text_cases _ dm e hmax hfmt hget hfit
  refine ⟨l, tr, h₁, h₂, handler_text_calls _ e l hfmt hget h₁ tr h₂, ?_⟩
  rcases h₄ with ⟨tok, c₁, rfl, c₂⟩ | ⟨c₁, c₂, rfl, c₃⟩ | ⟨n, ⟨c₁, c₂, c₃⟩, rfl, c₄⟩ |
    ⟨⟨c₁, c₂, c₃⟩, rfl, c₄⟩
  · have hne : e.text ≠ "REBOOT".toList := by
      intro h
      rw [h, show sscanf_UPGRADE_s "REBOOT".toList = none from by decide] at c₁
      exact Option.noConfusion c₁
    have hrep : snprintf LE_SMS_TEXT_MAX_BYTES MESSAGE_UPGRADE_SUCCESS ≠ "Rebooting FX30".toList :=
      snprintf_ne _ 'U' 'R' _ _ (by omega) (by decide)
    refine ⟨⟨fun h => absurd h.1 hrep, fun h => absurd h hne⟩, fun _ => ⟨hrep, ?_⟩⟩
    rw [system_mem_iff, c₂]
    simp
  · have hrep : snprintf LE_SMS_TEXT_MAX_BYTES MESSAGE_REBOOT_SUCCESS = "Rebooting FX30".toList :=
      snprintf_of_fits _ _ (by
        have : MESSAGE_REBOOT_SUCCESS.length = 14 := rfl
        omega)
    exact ⟨⟨fun _ => c₂, fun _ => ⟨hrep, c₃⟩⟩, fun h => absurd c₂ h⟩
  · have hrep : snprintf LE_SMS_TEXT_MAX_BYTES (MESSAGE_ULPM_SUCCESS n)
        ≠ "Rebooting FX30".toList :=
      snprintf_ne _ 'G' 'R' _ _ (by omega) (by decide)
    refine ⟨⟨fun h => absurd h.1 hrep, fun h => absurd h c₂⟩, fun _ => ⟨hrep, ?_⟩⟩
    rw [system_mem_iff, c₄]
    by_cases hn : 0 < n
    · rw [if_pos hn]; simp
    · rw [if_neg hn]; simp
  · have hrep : snprintf LE_SMS_TEXT_MAX_BYTES (MESSAGE_FAIL e.text)
        ≠ "Rebooting FX30".toList :=
      snprintf_ne _ 'U' 'R' _ _ (by omega) (by decide)
    refine ⟨⟨fun h => absurd h.1 hrep, fun h => absurd h c₂⟩, fun _ => ⟨hrep, ?_⟩⟩
    rw [system_mem_iff, c₄]
    simp

/-- C3 at the body `REBOOT` with 161-byte text buffers; the outgoing-message calls and the
launch events of that run are evaluated. -/
theorem C3_reboot_witness :
    (15 ≤ 161 ∧ 161 ≤ 250 ∧ (sampleEnv "REBOOT".toList).formatIsText = true ∧
      (sampleEnv "REBOOT".toList).le_sms_GetText = .LE_OK ∧
      (sampleEnv "REBOOT".toList).text.length < 161) ∧
    (∃ l tr, RxMessageHandler_classify 161 .LP64 (sampleEnv "REBOOT".toList).text = some l ∧
      RxMessageHandler 161 .LP64 (sampleEnv "REBOOT".toList) = some tr ∧
      tr.filter Effect.isReplyCall
        = replyCalls (sampleEnv "REBOOT".toList).send (sampleEnv "REBOOT".toList).tel
            l.textReturn ∧
      ((l.textReturn = "Rebooting FX30".toList ∧
          processEvents tr = [.chdir "/home/root".toList, .system "/sbin/reboot".toList])
        ↔ (sampleEnv "REBOOT".toList).text = "REBOOT".toList) ∧
      ((sampleEnv "REBOOT".toList).text ≠ "REBOOT".toList →
        l.textReturn ≠ "Rebooting FX30".toList ∧
        Effect.system "/sbin/reboot".toList ∉ tr)) ∧
    (RxMessageHandler 161 .LP64 (sampleEnv "REBOOT".toList)).map
        (List.filter (fun x => x.isReplyCall || x.isProcess))
      = some [.le_sms_Create, .le_sms_SetDestination "+64211234567".toList,
          .le_sms_SetText "Rebooting FX30".toList, .le_sms_Send,
          .chdir "/home/root".toList, .system "/sbin/reboot".toList] :=
  ⟨⟨by decide, by decide, rfl, rfl, by decide⟩,
    C3_reboot 161 .LP64 (sampleEnv "REBOOT".toList) (by decide) (by decide) rfl rfl
      (by decide),
    by decide⟩

/-- C4: for every `n` in the range of a 32-bit `int`, the body `"ULPM " ++ decimal n` sets
`ulpm_num_seconds = n` and nothing else, and the reply text is
`"Going into ULPM for " ++ decimal n ++ " seconds"`. -/
theorem C4_ulpm (LE_SMS_TEXT_MAX_BYTES : Nat) (dm : DataModel) (e : RxEnv) (n : Int)
    (hmin : 40 ≤ LE_SMS_TEXT_MAX_BYTES)
    (hfmt : e.formatIsText = true) (hget : e.le_sms_GetText = .LE_OK)
    (hbody : e.text = "ULPM ".toList ++ fmt_d n) (h₁ : -2 ^ 31 ≤ n) (h₂ : n < 2 ^ 31) :
    RxMessageHandler_classify LE_SMS_TEXT_MAX_BYTES dm e.text
        = some ⟨"Going into ULPM for ".toList ++ fmt_d n ++ " seconds".toList, n, [], false⟩ ∧
      ∃ tr, RxMessageHandler LE_SMS_TEXT_MAX_BYTES dm e = some tr ∧
        (∀ x, Effect.le_sms_SetText x ∈ tr →
          x = "Going into ULPM for ".toList ++ fmt_d n ++ " seconds".toList) ∧
        (e.send.le_sms_Create = true → e.send.le_sms_SetDestination = .LE_OK →
          Effect.le_sms_SetText ("Going into ULPM for ".toList ++ fmt_d n ++ " seconds".toList)
            ∈ tr) := by
  have hU : sscanf_UPGRADE_s e.text = none := by
    rw [hbody]
    exact sscanf_UPGRADE_s_eq_none _ (by simp)
  have hR : e.text ≠ "REBOOT".toList := by
    rw [hbody]
    simp
  have hL : sscanf_ULPM_d dm e.text = some n := by
    rw [hbody, sscanf_ULPM_d_decimal, stored_int_of_range dm n h₁ h₂]
  have hlen : (MESSAGE_ULPM_SUCCESS n).length < LE_SMS_TEXT_MAX_BYTES := by
    unfold MESSAGE_ULPM_SUCCESS
    rw [List.length_append, List.length_append]
    have a₁ : "Going into ULPM for ".toList.length = 20 := rfl
    have a₂ : " seconds".toList.length = 8 := rfl
    have := (fmt_d_length n h₁ h₂).1
    omega
  have hc : RxMessageHandler_classify LE_SMS_TEXT_MAX_BYTES dm e.text
      = some ⟨"Going into ULPM for ".toList ++ fmt_d n ++ " seconds".toList, n, [], false⟩ := by
    unfold RxMessageHandler_classify
    rw [hU]
    simp only []
    rw [if_neg hR, hL]
    simp only []
    rw [snprintf_of_fits _ _ hlen]
    rfl
  have hacts : ∀ x, Effect.le_sms_SetText x ∉
      (if 0 < n then StartProcess e.proc "/home/root/sms_scripts".toList
        ("./ulpm.sh ".toList ++ fmt_d n) else []) := by
    intro x
    by_cases hn : 0 < n
    · rw [if_pos hn]; exact StartProcess_no_SetText _ _ _ _
    · rw [if_neg hn]; exact List.not_mem_nil _
  obtain ⟨tr, t₁, -, -, t₂, t₃⟩ :=
    handler_text_reply _ e _ _ hfmt hget hc (actions_ulpm e.proc _ n h₁ h₂) hacts
  exact ⟨hc, tr, t₁, t₂, t₃⟩

/-- C4 at the body `ULPM 30`: the reply is `Going into ULPM for 30 seconds`. -/
theorem C4_ulpm_witness :
    (40 ≤ 161 ∧ (sampleEnv "ULPM 30".toList).formatIsText = true ∧
      (sampleEnv "ULPM 30".toList).le_sms_GetText = .LE_OK ∧
      (sampleEnv "ULPM 30".toList).text = "ULPM ".toList ++ fmt_d 30 ∧
      (-2 ^ 31 : Int) ≤ 30 ∧ (30 : Int) < 2 ^ 31) ∧
    (RxMessageHandler_classify 161 .LP64 (sampleEnv "ULPM 30".toList).text
        = some ⟨"Going into ULPM for 30 seconds".toList, 30, [], false⟩ ∧
      ∃ tr, RxMessageHandler 161 .LP64 (sampleEnv "ULPM 30".toList) = some tr ∧
        (∀ x, Effect.le_sms_SetText x ∈ tr → x = "Going into ULPM for 30 seconds".toList) ∧
        ((sampleEnv "ULPM 30".toList).send.le_sms_Create = true →
          (sampleEnv "ULPM 30".toList).send.le_sms_SetDestination = .LE_OK →
          Effect.le_sms_SetText "Going into ULPM for 30 seconds".toList ∈ tr)) :=
  ⟨⟨by decide, rfl, rfl, by decide, by decide, by decide⟩,
    C4_ulpm 161 .LP64 (sampleEnv "ULPM 30".toList) 30 (by decide) rfl rfl (by decide) (by decide)
      (by decide)⟩

/-- C5: the sleep script is launched exactly when the third branch stored an `n > 0`, and then
the only launch is `./ulpm.sh n` after `chdir` to `/home/root/sms_scripts`; when the stored
`n` is zero or negative the reply is still sent (the outgoing-message calls are those of one
reply attempt with the sleep text) and nothing is launched. -/
theorem C5_sleep (LE_SMS_TEXT_MAX_BYTES : Nat) (dm : DataModel) (e : RxEnv)
    (hmax : LE_SMS_TEXT_MAX_BYTES ≤ 250)
    (hfmt : e.formatIsText = true) (hget : e.le_sms_GetText = .LE_OK)
    (hfit : e.text.length < LE_SMS_TEXT_MAX_BYTES) :
    ∃ tr, RxMessageHandler LE_SMS_TEXT_MAX_BYTES dm e = some tr ∧
      ((∃ cmd, Effect.system cmd ∈ tr ∧ "./ulpm.sh ".toList <+: cmd) ↔
        ∃ n, ParsesAsSleep dm e.text n ∧ 0 < n) ∧
      (∀ n, ParsesAsSleep dm e.text n → 0 < n →
        tr.filter Effect.isReplyCall
          = replyCalls e.send e.tel (snprintf LE_SMS_TEXT_MAX_BYTES (MESSAGE_ULPM_SUCCESS n)) ∧
        processEvents tr = [.chdir "/home/root/sms_scripts".toList,
          .system ("./ulpm.sh ".toList ++ fmt_d n)]) ∧
      (∀ n, ParsesAsSleep dm e.text n → n ≤ 0 →
        tr.filter Effect.isReplyCall
          = replyCalls e.send e.tel (snprintf LE_SMS_TEXT_MAX_BYTES (MESSAGE_ULPM_SUCCESS n)) ∧
        Effect.le_sms_DeleteFromStorage ∈ tr ∧
        processEvents tr = []) := by
  obtain ⟨l, tr, h₁, h₂, -, -, -, h₄⟩ := handler_text_cases _ dm e hmax hfmt hget hfit
  have hcalls := handler_text_calls _ e l hfmt hget h₁ tr h₂
  have hdfs := handler_text_deletes _ e l hfmt hget h₁ tr h₂
  refine ⟨tr, h₂, ?_⟩
  rcases h₄ with ⟨tok, c₁, rfl, c₂⟩ | ⟨c₁, c₂, rfl, c₃⟩ | ⟨n, c₁, rfl, c₄⟩ | ⟨c₁, rfl, c₄⟩
  · have hno : ∀ n, ¬ ParsesAsSleep dm e.text n := fun n h => by
      rw [h.1] at c₁; exact Option.noConfusion c₁
    refine ⟨⟨?_, fun ⟨n, h, _⟩ => absurd h (hno n)⟩, fun n h => absurd h (hno n),
      fun n h => absurd h (hno n)⟩
    rintro ⟨cmd, hc, hp⟩
    rw [system_mem_iff, c₂] at hc
    simp at hc
    rw [hc] at hp
    simp at hp
  · have hno : ∀ n, ¬ ParsesAsSleep dm e.text n := fun n h => h.2.1 c₂
    refine ⟨⟨?_, fun ⟨n, h, _⟩ => absurd h (hno n)⟩, fun n h => absurd h (hno n),
      fun n h => absurd h (hno n)⟩
    rintro ⟨cmd, hc, hp⟩
    rw [system_mem_iff, c₃] at hc
    simp at hc
    rw [hc] at hp
    simp at hp
  · have huniq : ∀ m, ParsesAsSleep dm e.text m → m = n := fun m h => by
      have := h.2.2
      rw [c₁.2.2] at this
      exact (Option.some.inj this).symm
    by_cases hn : 0 < n
    · rw [if_pos hn] at c₄
      refine ⟨⟨fun _ => ⟨n, c₁, hn⟩, fun _ =>
        ⟨"./ulpm.sh ".toList ++ fmt_d n, ?_, List.prefix_append _ _⟩⟩, ?_, ?_⟩
      · rw [system_mem_iff, c₄]
        simp
      · intro m hm _
        rw [huniq m hm]
        exact ⟨hcalls, c₄⟩
      · intro m hm hle
        rw [huniq m hm] at hle
        omega
    · rw [if_neg hn] at c₄
      refine ⟨⟨?_, ?_⟩, ?_, ?_⟩
      · rintro ⟨cmd, hc, -⟩
        rw [system_mem_iff, c₄] at hc
        exact absurd hc (List.not_mem_nil _)
      · rintro ⟨m, hm, hpos⟩
        rw [huniq m hm] at hpos
        exact absurd hpos hn
      · intro m hm hpos
        rw [huniq m hm] at hpos
        exact absurd hpos hn
      · intro m hm _
        rw [huniq m hm]
        exact ⟨hcalls, hdfs, c₄⟩
  · have hno : ∀ n, ¬ ParsesAsSleep dm e.text n := fun n h => by
      have := h.2.2
      rw [c₁.2.2] at this
      exact Option.noConfusion this
    refine ⟨⟨?_, fun ⟨n, h, _⟩ => absurd h (hno n)⟩, fun n h => absurd h (hno n),
      fun n h => absurd h (hno n)⟩
    rintro ⟨cmd, hc, -⟩
    rw [system_mem_iff, c₄] at hc
    exact absurd hc (List.not_mem_nil _)

/-- C5 at the body `ULPM 30` with 161-byte text buffers. The telephony calls and launch events
of the runs on `ULPM 30`, `ULPM -5` and `ULPM 0` are evaluated, and so is a numeral beyond the
range of `long`, `ULPM 18446744073709551621`: with a 64-bit `long` it stores -1 and nothing is
launched. -/
theorem C5_sleep_witness :
    (161 ≤ 250 ∧ (sampleEnv "ULPM 30".toList).formatIsText = true ∧
      (sampleEnv "ULPM 30".toList).le_sms_GetText = .LE_OK ∧
      (sampleEnv "ULPM 30".toList).text.length < 161 ∧
      (ParsesAsSleep .LP64 (sampleEnv "ULPM 30".toList).text 30 ∧ (0 : Int) < 30) ∧
      (ParsesAsSleep .LP64 (sampleEnv "ULPM -5".toList).text (-5) ∧ (-5 : Int) ≤ 0) ∧
      (ParsesAsSleep .LP64 (sampleEnv "ULPM 0".toList).text 0 ∧ (0 : Int) ≤ 0) ∧
      ParsesAsSleep .LP64 (sampleEnv "ULPM 18446744073709551621".toList).text (-1)) ∧
    (∃ tr, RxMessageHandler 161 .LP64 (sampleEnv "ULPM 30".toList) = some tr ∧
      ((∃ cmd, Effect.system cmd ∈ tr ∧ "./ulpm.sh ".toList <+: cmd) ↔
        ∃ n, ParsesAsSleep .LP64 (sampleEnv "ULPM 30".toList).text n ∧ 0 < n) ∧
      (∀ n, ParsesAsSleep .LP64 (sampleEnv "ULPM 30".toList).text n → 0 < n →
        tr.filter Effect.isReplyCall
          = replyCalls (sampleEnv "ULPM 30".toList).send (sampleEnv "ULPM 30".toList).tel
              (snprintf 161 (MESSAGE_ULPM_SUCCESS n)) ∧
        processEvents tr = [.chdir "/home/root/sms_scripts".toList,
          .system ("./ulpm.sh ".toList ++ fmt_d n)]) ∧
      (∀ n, ParsesAsSleep .LP64 (sampleEnv "ULPM 30".toList).text n → n ≤ 0 →
        tr.filter Effect.isReplyCall
          = replyCalls (sampleEnv "ULPM 30".toList).send (sampleEnv "ULPM 30".toList).tel
              (snprintf 161 (MESSAGE_ULPM_SUCCESS n)) ∧
        Effect.le_sms_DeleteFromStorage ∈ tr ∧
        processEvents tr = [])) ∧
    (RxMessageHandler 161 .LP64 (sampleEnv "ULPM 30".toList)).map
        (List.filter (fun x => x.isReplyCall || x.isProcess))
      = some [.le_sms_Create, .le_sms_SetDestination "+64211234567".toList,
          .le_sms_SetText "Going into ULPM for 30 seconds".toList, .le_sms_Send,
          .chdir "/home/root/sms_scripts".toList, .system "./ulpm.sh 30".toList] ∧
    (RxMessageHandler 161 .LP64 (sampleEnv "ULPM -5".toList)).map
        (List.filter (fun x => x.isReplyCall || x.isProcess))
      = some [.le_sms_Create, .le_sms_SetDestination "+64211234567".toList,
          .le_sms_SetText "Going into ULPM for -5 seconds".toList, .le_sms_Send] ∧
    (RxMessageHandler 161 .LP64 (sampleEnv "ULPM 0".toList)).map
        (List.filter (fun x => x.isReplyCall || x.isProcess))
      = some [.le_sms_Create, .le_sms_SetDestination "+64211234567".toList,
          .le_sms_SetText "Going into ULPM for 0 seconds".toList, .le_sms_Send] ∧
    (RxMessageHandler 161 .LP64 (sampleEnv "ULPM 18446744073709551621".toList)).map
        (List.filter (fun x => x.isReplyCall || x.isProcess))
      = some [.le_sms_Create, .le_sms_SetDestination "+64211234567".toList,
          .le_sms_SetText "Going into ULPM for -1 seconds".toList, .le_sms_Send] :=
  ⟨⟨by decide, rfl, rfl, by decide, by decide, by decide, by decide, by decide⟩,
    C5_sleep 161 .LP64 (sampleEnv "ULPM 30".toList) (by decide) rfl rfl (by decide),
    by decide, by decide, by decide, by decide⟩

/-- C6: every run of the handler holds at most one `system` call. Each launch event (`chdir`
or `system`) comes after the whole reply attempt of `smsmo_SendMessage` (`le_sms_Create`,
`le_sms_SetDestination`, `le_sms_SetText`, `le_sms_Send`, as far as the telephony service lets
it go) and after `le_sms_DeleteFromStorage`, and no such call follows it. A body on which the
three recognisers fail causes no launch event. -/
theorem C6_order (LE_SMS_TEXT_MAX_BYTES : Nat) (dm : DataModel) (e : RxEnv)
    (hmax : LE_SMS_TEXT_MAX_BYTES ≤ 250) (hfit : e.text.length < LE_SMS_TEXT_MAX_BYTES) :
    ∃ tr, RxMessageHandler LE_SMS_TEXT_MAX_BYTES dm e = some tr ∧
      (tr.filter Effect.isSystem).length ≤ 1 ∧
      (∀ pre x post, tr = pre ++ x :: post → x.isProcess = true →
        (∃ l, RxMessageHandler_classify LE_SMS_TEXT_MAX_BYTES dm e.text = some l ∧
          pre.filter Effect.isReplyCall = replyCalls e.send e.tel l.textReturn) ∧
        Effect.le_sms_DeleteFromStorage ∈ pre ∧
        ∀ y ∈ post, y.isReplyCall = false ∧ y ≠ .le_sms_DeleteFromStorage) ∧
      (e.formatIsText = true → e.le_sms_GetText = .LE_OK → ParsesAsUnknown dm e.text →
        processEvents tr = []) := by
  obtain ⟨pre, acts, h₁, h₂, h₃, hq, h₄, h₅⟩ := handler_split _ dm e hmax hfit
  refine ⟨_, h₁, ?_, ?_, ?_⟩
  · rw [List.filter_append, filter_isSystem_of_processEvents_nil pre h₂, List.nil_append]
    exact h₄
  · intro pre' x post hsplit hx
    have hpre : ∀ y ∈ pre, y.isProcess = false := by
      intro y hy
      unfold processEvents at h₂
      rw [List.filter_eq_nil_iff] at h₂
      simpa using h₂ y hy
    rcases List.append_eq_append_iff.1 hsplit with ⟨a', e₁, e₂⟩ | ⟨c', e₁, e₂⟩
    · have hne : acts ≠ [] := by
        rw [e₂]
        exact List.append_ne_nil_of_right_ne_nil _ (List.cons_ne_nil _ _)
      obtain ⟨⟨l, m₁, m₂⟩, m₃⟩ := h₃ hne
      have ha' : ∀ y ∈ a', y.isReplyCall = false ∧ y ≠ .le_sms_DeleteFromStorage :=
        fun y hy => hq y (by rw [e₂]; exact List.mem_append_left _ hy)
      refine ⟨⟨l, m₁, ?_⟩, ?_, fun y hy => hq y ?_⟩
      · rw [e₁, List.filter_append, m₂, filter_isReplyCall_quiet a' ha', List.append_nil]
      · rw [e₁]
        exact List.mem_append_left _ m₃
      · rw [e₂]
        exact List.mem_append_right _ (List.mem_cons_of_mem _ hy)
    · cases c' with
      | nil =>
        rw [List.nil_append] at e₂
        rw [List.append_nil] at e₁
        have hne : acts ≠ [] := by
          rw [← e₂]
          exact List.cons_ne_nil _ _
        obtain ⟨⟨l, m₁, m₂⟩, m₃⟩ := h₃ hne
        refine ⟨⟨l, m₁, ?_⟩, ?_, fun y hy => hq y ?_⟩
        · rw [← e₁]; exact m₂
        · rw [← e₁]; exact m₃
        · rw [← e₂]
          exact List.mem_cons_of_mem _ hy
      | cons c cs =>
        have hxc : x = c := (List.cons.inj e₂).1
        have hmem : x ∈ pre := by
          rw [e₁, hxc]
          exact List.mem_append_right _ (List.mem_cons_self _ _)
        have := hpre x hmem
        rw [hx] at this
        exact Bool.noConfusion this
  · intro a b c
    rw [h₅ a b c, List.append_nil]
    exact h₂

/-- C6 at the body `UPGRADE v9` with 161-byte text buffers; the telephony calls and launch
events of that run are evaluated, in order. -/
theorem C6_order_witness :
    (161 ≤ 250 ∧ (sampleEnv "UPGRADE v9".toList).text.length < 161) ∧
    (∃ tr, RxMessageHandler 161 .LP64 (sampleEnv "UPGRADE v9".toList) = some tr ∧
      (tr.filter Effect.isSystem).length ≤ 1 ∧
      (∀ pre x post, tr = pre ++ x :: post → x.isProcess = true →
        (∃ l, RxMessageHandler_classify 161 .LP64 (sampleEnv "UPGRADE v9".toList).text
            = some l ∧
          pre.filter Effect.isReplyCall
            = replyCalls (sampleEnv "UPGRADE v9".toList).send
                (sampleEnv "UPGRADE v9".toList).tel l.textReturn) ∧
        Effect.le_sms_DeleteFromStorage ∈ pre ∧
        ∀ y ∈ post, y.isReplyCall = false ∧ y ≠ .le_sms_DeleteFromStorage) ∧
      ((sampleEnv "UPGRADE v9".toList).formatIsText = true →
        (sampleEnv "UPGRADE v9".toList).le_sms_GetText = .LE_OK →
        ParsesAsUnknown .LP64 (sampleEnv "UPGRADE v9".toList).text → processEvents tr = [])) ∧
    (RxMessageHandler 161 .LP64 (sampleEnv "UPGRADE v9".toList)).map
        (List.filter (fun x => x.isReplyCall || x.isProcess
          || decide (x = .le_sms_DeleteFromStorage)))
      = some [.le_sms_Create, .le_sms_SetDestination "+64211234567".toList,
          .le_sms_SetText "Upgrade started".toList, .le_sms_Send, .le_sms_DeleteFromStorage,
          .chdir "/home/root/sms_scripts".toList, .system "./upgrade.sh v9".toList] :=
  ⟨⟨by decide, by decide⟩,
    C6_order 161 .LP64 (sampleEnv "UPGRADE v9".toList) (by decide) (by decide),
    by decide⟩

/-- C7: on each of the three failure paths after a successful `le_sms_Create`
(`le_sms_SetDestination`, `le_sms_SetText` or `le_sms_Send` not `LE_OK`) `smsmo_SendMessage`
returns `LE_FAULT` and its calls do not include `le_sms_Delete` on the created message; only
the success path releases it. -/
theorem C7_failure_paths_skip_delete (dest text : CStr) :
    (smsMO.smsmo_SendMessage ⟨true, .LE_FAULT, .LE_OK, .LE_OK⟩ dest text
        = ([.le_sms_Create, .le_sms_SetDestination dest,
            .log .error "le_sms_SetDestination has failed (res.%d)!"], .LE_FAULT) ∧
      Effect.le_sms_Delete .myMsg ∉
        (smsMO.smsmo_SendMessage ⟨true, .LE_FAULT, .LE_OK, .LE_OK⟩ dest text).1) ∧
    (Effect.le_sms_Delete .myMsg ∉
        (smsMO.smsmo_SendMessage ⟨true, .LE_OK, .LE_FAULT, .LE_OK⟩ dest text).1 ∧
      (smsMO.smsmo_SendMessage ⟨true, .LE_OK, .LE_FAULT, .LE_OK⟩ dest text).2 = .LE_FAULT) ∧
    (Effect.le_sms_Delete .myMsg ∉
        (smsMO.smsmo_SendMessage ⟨true, .LE_OK, .LE_OK, .LE_FAULT⟩ dest text).1 ∧
      (smsMO.smsmo_SendMessage ⟨true, .LE_OK, .LE_OK, .LE_FAULT⟩ dest text).2 = .LE_FAULT) ∧
    (smsMO.smsmo_SendMessage ⟨true, .LE_OK, .LE_OK, .LE_OK⟩ dest text).1.count
      (.le_sms_Delete .myMsg) = 1 := by
  simp [smsMO.smsmo_SendMessage]

/-- C8: when the three recognisers fail on `raw`, the reply is
`"Unknown command '" ++ raw ++ "'"` cut to `LE_SMS_TEXT_MAX_BYTES - 1` characters, so it fits
`textReturn` with its terminator; the empty body gives `"Unknown command ''"`. -/
theorem C8_unknown_reply (LE_SMS_TEXT_MAX_BYTES : Nat) (dm : DataModel) (raw : CStr)
    (hU : sscanf_UPGRADE_s raw = none) (hR : raw ≠ "REBOOT".toList)
    (hL : sscanf_ULPM_d dm raw = none) :
    (∃ l, RxMessageHandler_classify LE_SMS_TEXT_MAX_BYTES dm raw = some l ∧
        l.textReturn = ("Unknown command '".toList ++ raw ++ "'".toList).take
          (LE_SMS_TEXT_MAX_BYTES - 1) ∧
        l.textReturn.length ≤ LE_SMS_TEXT_MAX_BYTES - 1) ∧
      (19 ≤ LE_SMS_TEXT_MAX_BYTES →
        RxMessageHandler_classify LE_SMS_TEXT_MAX_BYTES dm []
          = some ⟨"Unknown command ''".toList, 0, [], false⟩) := by
  refine ⟨⟨_, classify_unknown _ dm raw hU hR hL, rfl, ?_⟩, fun h => ?_⟩
  · show (List.take _ _).length ≤ _
    rw [List.length_take]
    exact Nat.min_le_left _ _
  · rw [classify_unknown _ dm [] (by decide) (by decide) rfl,
      snprintf_of_fits _ _ (by
        have : (MESSAGE_FAIL []).length = 18 := rfl
        omega)]
    rfl

/-- C8 at the body `HELLO` with 161-byte text buffers. -/
theorem C8_unknown_reply_witness :
    (sscanf_UPGRADE_s "HELLO".toList = none ∧ "HELLO".toList ≠ "REBOOT".toList ∧
      sscanf_ULPM_d .LP64 "HELLO".toList = none) ∧
    ((∃ l, RxMessageHandler_classify 161 .LP64 "HELLO".toList = some l ∧
        l.textReturn = ("Unknown command '".toList ++ "HELLO".toList ++ "'".toList).take
          (161 - 1) ∧
        l.textReturn.length ≤ 161 - 1) ∧
      (19 ≤ 161 →
        RxMessageHandler_classify 161 .LP64 [] = some ⟨"Unknown command ''".toList, 0, [], false⟩)) :=
  ⟨⟨by decide, by decide, by decide⟩,
    C8_unknown_reply 161 .LP64 "HELLO".toList (by decide) (by decide) (by decide)⟩

/-- C9: the boot launcher returns exactly when `popen` gave a stream, the wait status says the
script exited, and its exit status is 0. A status that is not a normal exit is fatal; an exit
status `c ≠ 0` is fatal with `c` in the message; a `NULL` stream is fatal; a failed `chdir` is
logged and has no influence on the outcome. -/
theorem C9_boot (WIFEXITED : Int → Bool) (WEXITSTATUS : Int → Int)
    (e : TaringaComponent.BootEnv) (wd cmd : CStr) :
    ((TaringaComponent.StartProcess WIFEXITED WEXITSTATUS e wd cmd).2 = .returned ↔
        e.popen ≠ none ∧ WIFEXITED e.pclose = true ∧ WEXITSTATUS e.pclose = 0) ∧
      (e.popen ≠ none → WIFEXITED e.pclose = false →
        (TaringaComponent.StartProcess WIFEXITED WEXITSTATUS e wd cmd).2
          = .fatal "Could not run boot script".toList) ∧
      (e.popen ≠ none → WIFEXITED e.pclose = true → WEXITSTATUS e.pclose ≠ 0 →
        (TaringaComponent.StartProcess WIFEXITED WEXITSTATUS e wd cmd).2
          = .fatal ("boot script failed with exit code ".toList
              ++ fmt_d (WEXITSTATUS e.pclose))) ∧
      (e.popen = none →
        ∃ msg, (TaringaComponent.StartProcess WIFEXITED WEXITSTATUS e wd cmd).2 = .fatal msg) ∧
      (e.chdir ≠ 0 → Effect.log .error "Error changing directory to: %s" ∈
        (TaringaComponent.StartProcess WIFEXITED WEXITSTATUS e wd cmd).1) ∧
      ∀ c, (TaringaComponent.StartProcess WIFEXITED WEXITSTATUS ⟨c, e.popen, e.pclose⟩ wd cmd).2
        = (TaringaComponent.StartProcess WIFEXITED WEXITSTATUS e wd cmd).2 := by
  obtain ⟨c₀, po, pc⟩ := e
  cases po with
  | none => simp [TaringaComponent.StartProcess]
  | some lines =>
    by_cases h₁ : WIFEXITED pc = true
    · by_cases h₂ : WEXITSTATUS pc = 0
      · by_cases h₃ : c₀ = 0 <;> simp [TaringaComponent.StartProcess, h₁, h₂, h₃]
      · by_cases h₃ : c₀ = 0 <;> simp [TaringaComponent.StartProcess, h₁, h₂, h₃]
    · by_cases h₃ : c₀ = 0 <;> simp [TaringaComponent.StartProcess, h₁, h₃]

/-- C9 with the glibc wait-status macros at the status 256 (exit code 1): the launcher is fatal
and the message ends in `1`. -/
theorem C9_boot_witness :
    ((⟨0, some [], 256⟩ : TaringaComponent.BootEnv).popen ≠ none ∧
      TaringaComponent.glibc_WIFEXITED (⟨0, some [], 256⟩ : TaringaComponent.BootEnv).pclose
        = true ∧
      TaringaComponent.glibc_WEXITSTATUS (⟨0, some [], 256⟩ : TaringaComponent.BootEnv).pclose
        ≠ 0) ∧
    (TaringaComponent.StartProcess TaringaComponent.glibc_WIFEXITED
        TaringaComponent.glibc_WEXITSTATUS ⟨0, some [], 256⟩ "/home/root".toList
        "./boot.sh".toList).2 = .fatal "boot script failed with exit code 1".toList :=
  ⟨⟨by decide, by decide, by decide⟩,
    (C9_boot TaringaComponent.glibc_WIFEXITED TaringaComponent.glibc_WEXITSTATUS
      ⟨0, some [], 256⟩ "/home/root".toList "./boot.sh".toList).2.2.1
      (by decide) (by decide) (by decide)⟩

/-- C10: for a body that fits the text buffer, the token stored by the `"UPGRADE %s"` scan has
no white space and at most 255 characters, the upgrade command has at most 255 characters, and
for every positive 32-bit `n` the sleep command has at most 29 characters; none of the three
`sprintf` / `sscanf` targets is overrun. -/
theorem C10_no_overrun (LE_SMS_TEXT_MAX_BYTES : Nat) (dm : DataModel) (text : CStr)
    (hmax : LE_SMS_TEXT_MAX_BYTES ≤ 250) (hfit : text.length ≤ LE_SMS_TEXT_MAX_BYTES - 1) :
    (∀ tok, sscanf_UPGRADE_s text = some tok →
        (∀ c ∈ tok, isspace c = false) ∧ tok.length ≤ 255 ∧
        ("./upgrade.sh ".toList ++ tok).length ≤ 255 ∧
        sprintf 256 ("./upgrade.sh ".toList ++ tok) = some ("./upgrade.sh ".toList ++ tok)) ∧
      (∀ n : Int, 0 < n → n < 2 ^ 31 →
        ("./ulpm.sh ".toList ++ fmt_d n).length ≤ 29 ∧
        sprintf 30 ("./ulpm.sh ".toList ++ fmt_d n) = some ("./ulpm.sh ".toList ++ fmt_d n)) ∧
      ∃ l, RxMessageHandler_classify LE_SMS_TEXT_MAX_BYTES dm text = some l ∧
        ∀ p, ∃ acts, RxMessageHandler_actions p l = some acts := by
  have hupg : ∀ tok, sscanf_UPGRADE_s text = some tok →
      (∀ c ∈ tok, isspace c = false) ∧ tok ≠ [] ∧ tok.length ≤ 242 := by
    intro tok h
    obtain ⟨b₁, b₂, b₃⟩ := sscanf_UPGRADE_s_bound text tok h
    exact ⟨b₁, b₂, by omega⟩
  have hcmd : ∀ tok : CStr, ("./upgrade.sh ".toList ++ tok).length = 13 + tok.length := by
    intro tok
    rw [List.length_append]
    rfl
  have hslp : ∀ n : Int, ("./ulpm.sh ".toList ++ fmt_d n).length = 10 + (fmt_d n).length := by
    intro n
    rw [List.length_append]
    rfl
  refine ⟨fun tok h => ?_, fun n h₁ h₂ => ?_, ?_⟩
  · obtain ⟨b₁, -, b₃⟩ := hupg tok h
    have := hcmd tok
    exact ⟨b₁, by omega, by omega, by unfold sprintf; rw [if_pos (by omega)]⟩
  · have := (fmt_d_length n (by omega) h₂).2 (by omega)
    have := hslp n
    exact ⟨by omega, by unfold sprintf; rw [if_pos (by omega)]⟩
  · by_cases hB : LE_SMS_TEXT_MAX_BYTES = 0
    · have h0 : text = [] := List.length_eq_zero.1 (by omega)
      subst h0
      exact ⟨_, classify_unknown _ dm [] (by decide) (by decide) rfl,
        fun p => ⟨_, actions_idle p _⟩⟩
    · obtain ⟨l, hl⟩ := classify_defined _ dm text (by omega) hmax
      refine ⟨l, hl, fun p => ?_⟩
      rcases classify_cases _ _ _ hl with ⟨tok, c₁, -, rfl⟩ | ⟨-, -, rfl⟩ | ⟨n, -, -, c₁, rfl⟩ |
        ⟨-, -, -, rfl⟩
      · obtain ⟨-, b₂, b₃⟩ := hupg tok c₁
        exact ⟨_, actions_upgrade p _ tok b₂ b₃⟩
      · exact ⟨_, actions_reboot p _⟩
      · obtain ⟨r₁, r₂⟩ := sscanf_ULPM_d_range text n c₁
        exact ⟨_, actions_ulpm p _ n r₁ r₂⟩
      · exact ⟨_, actions_idle p _⟩

/-- C10 at the body `UPGRADE 1.2.3` with 161-byte text buffers. -/
theorem C10_no_overrun_witness :
    (161 ≤ 250 ∧ "UPGRADE 1.2.3".toList.length ≤ 161 - 1) ∧
    ((∀ tok, sscanf_UPGRADE_s "UPGRADE 1.2.3".toList = some tok →
        (∀ c ∈ tok, isspace c = false) ∧ tok.length ≤ 255 ∧
        ("./upgrade.sh ".toList ++ tok).length ≤ 255 ∧
        sprintf 256 ("./upgrade.sh ".toList ++ tok) = some ("./upgrade.sh ".toList ++ tok)) ∧
      (∀ n : Int, 0 < n → n < 2 ^ 31 →
        ("./ulpm.sh ".toList ++ fmt_d n).length ≤ 29 ∧
        sprintf 30 ("./ulpm.sh ".toList ++ fmt_d n) = some ("./ulpm.sh ".toList ++ fmt_d n)) ∧
      ∃ l, RxMessageHandler_classify 161 .LP64 "UPGRADE 1.2.3".toList = some l ∧
        ∀ p, ∃ acts, RxMessageHandler_actions p l = some acts) :=
  ⟨⟨by decide, by decide⟩, C10_no_overrun 161 .LP64 "UPGRADE 1.2.3".toList (by decide) (by decide)⟩

end SmartBuoy
